import Mathlib

/-!
# TrtExecutable: engine construction, batch-adaptive rebuild and int8 calibration

A shallow embedding of `oneflow_xrt/compiler/tensorrt/trt_executable.cpp`.

* C++ member state of a `TrtExecutable` becomes the record `Executable`.
* Null pointers become `none`; dereferencing one is the fatal outcome `Fatal.nullDereference`.
* `CHECK(...)` failures become the other `Fatal` outcomes (glog aborts the process).
* TensorRT / CUDA / the file system are an explicit environment `Env`.
* Every call that leaves the executable (builder, registry, calibrator, stream) is
  recorded in an event list, so that "what was attempted" can be stated.
-/

namespace TrtExecutable

/-! ## Machine integers -/

/-- Two's complement value of an integer narrowed to 32 bits: `static_cast<int32_t>(x)`
and the implicit `int64_t` to `int` conversion. -/
def toInt32 (x : Int) : Int := (x + 2147483648) % 4294967296 - 2147483648

/-! ## Data model -/

/-- A named buffer descriptor: name, shape (dimension 0 is the batch), raw device pointer. -/
structure Parameter where
  name : String
  shape : List Int
  data : Nat
  deriving DecidableEq, Repr

/-- The option bag `run_options.common`. -/
structure CommonOptions where
  use_fp16 : Bool
  use_int8 : Bool
  int8_calibration : String
  max_batch_size : Int
  max_workspace_size : Int
  deriving DecidableEq, Repr

/-- The C++ struct `ExecutableRunOptions`, restricted to the members `Run` reads. -/
structure ExecutableRunOptions where
  common : CommonOptions
  stream : Nat
  return_params : List Parameter
  deriving DecidableEq, Repr

/-- The enumerators of `nvinfer1::BuilderFlag` (NvInfer.h). -/
inductive BuilderFlag where
  | kFP16
  | kINT8
  | kDEBUG
  | kGPU_FALLBACK
  | kSTRICT_TYPES
  | kREFIT
  deriving DecidableEq, Repr

/-- The C++ conversion `int(flag)`: the enumerator values of NvInfer.h. -/
def BuilderFlag.toInt : BuilderFlag → Nat
  | .kFP16 => 0
  | .kINT8 => 1
  | .kDEBUG => 2
  | .kGPU_FALLBACK => 3
  | .kSTRICT_TYPES => 4
  | .kREFIT => 5

/-- The 32-bit unsigned mask `1U << int(flag)`. -/
def flagBit (f : BuilderFlag) : Nat := (1 <<< f.toInt) % 4294967296

/-- A calibrator object, named by how it came to exist: built from the text of a
calibration table (`new TRTInt8Calibrator(calibration_data)`), or the live calibrator
owned by the shared resource of an executable name (`new TRTInt8Calibrator()`). -/
inductive CalibratorRef where
  | fromTable (calibration_data : String)
  | shared (name : String)
  deriving DecidableEq, Repr

/-- What `CreateExecutableEngine` stores in the `IBuilderConfig`. -/
structure IBuilderConfig where
  max_workspace_size : Int
  flags : Nat
  int8_calibrator : Option CalibratorRef
  deriving DecidableEq, Repr

/-- A built engine: the configuration it was built with, the maximum batch size the
builder was set to (`getMaxBatchSize`), and its binding table, slot `i` carrying the
name `bindings[i]` (`getNbBindings`, `getBindingIndex`). -/
structure ICudaEngine where
  config : IBuilderConfig
  max_batch_size : Int
  bindings : List String
  deriving DecidableEq, Repr

/-- An execution context remembers the engine it was created from. -/
structure IExecutionContext where
  engine : ICudaEngine
  deriving DecidableEq, Repr

/-- The `LOG(INFO)` lines of `CreateExecutableEngine`. -/
inductive Diagnostic where
  | fp16Unsupported
  | int8Unsupported
  deriving DecidableEq, Repr

/-- Everything `CreateExecutableEngine` hands to the builder before building. -/
structure BuildCall where
  config : IBuilderConfig
  max_batch_size : Int
  diagnostics : List Diagnostic
  deriving DecidableEq, Repr

/-- The process-terminating conditions (`CHECK` failures) and the null dereference. -/
inductive Fatal where
  | builderNotSetup
  | calibrationFileNotFound (path : String)
  | calibrationDataEmpty
  | cannotCreateEngine
  | failedToRebuildEngine (batch_size : Int)
  | shapeIndexOutOfRange
  | streamSynchronizeFailed
  | nullDereference
  deriving DecidableEq, Repr

/-- The world outside the executable: the builder hardware queries, whether a build
yields an engine, the file system, the device enqueue and the stream synchronisation. -/
structure Env where
  platformHasFastFp16 : Bool
  platformHasFastInt8 : Bool
  buildSucceeds : IBuilderConfig → Int → Bool
  readFile : String → Option String
  enqueueV2 : IExecutionContext → List Nat → Nat → Bool
  streamSynchronizeOk : Nat → Bool
  deviceId : Nat

/-- The member state of one `TrtExecutable`. `builder` says whether `builder_` is set,
`network` is `network_` reduced to the binding names an engine built from it exposes. -/
structure Executable where
  name : String
  builder : Bool
  network : Option (List String)
  engine : Option ICudaEngine
  execution_context : Option IExecutionContext
  calibrator : Option CalibratorRef
  results : List Parameter
  deriving DecidableEq, Repr

/-! ## CreateExecutableEngine -/

/-- Lines 44-66: the builder flags, the calibrator put on the config and the
diagnostics, from the options, the hardware and the (possibly null) calibrator. -/
def precisionConfig (env : Env) (common : CommonOptions) (calibrator : Option CalibratorRef) :
    Nat × Option CalibratorRef × List Diagnostic :=
  let flags : Nat := 0
  let r1 : Nat × List Diagnostic :=
    if common.use_fp16 then
      if env.platformHasFastFp16 then (flags ||| flagBit .kFP16, [])
      else (flags, [Diagnostic.fp16Unsupported])
    else (flags, [])
  if common.use_int8 then
    if env.platformHasFastInt8 then
      match calibrator with
      | some c =>
        let f2 := r1.1 ||| flagBit .kINT8
        let f3 := if env.platformHasFastFp16 then f2 ||| flagBit .kFP16 else f2
        (f3, some c, r1.2)
      | none => (r1.1, none, r1.2)
    else (r1.1, none, r1.2 ++ [Diagnostic.int8Unsupported])
  else (r1.1, none, r1.2)

/-- Lines 36-76: the calls made on the build config and the builder. -/
def buildCall (env : Env) (run_options : ExecutableRunOptions) (batch_size : Int)
    (calibrator : Option CalibratorRef) : BuildCall :=
  let max_workspace_size : Int :=
    if run_options.common.max_workspace_size > 0 then run_options.common.max_workspace_size
    else 16777216
  let p := precisionConfig env run_options.common calibrator
  { config := { max_workspace_size := max_workspace_size, flags := p.1, int8_calibrator := p.2.1 }
    max_batch_size := max (toInt32 run_options.common.max_batch_size) batch_size
    diagnostics := p.2.2 }

/-- The member function `TrtExecutable::CreateExecutableEngine`: fatal unless builder and network are set up;
otherwise the builder calls made and the engine `buildEngineWithConfig` returns (`none`
for a null engine). -/
def CreateExecutableEngine (env : Env) (exe : Executable) (run_options : ExecutableRunOptions)
    (batch_size : Int) (calibrator : Option CalibratorRef) :
    Except Fatal (BuildCall × Option ICudaEngine) :=
  match exe.builder, exe.network with
  | true, some net =>
    let call := buildCall env run_options batch_size calibrator
    let engine : Option ICudaEngine :=
      if env.buildSucceeds call.config call.max_batch_size then
        some { config := call.config, max_batch_size := call.max_batch_size, bindings := net }
      else none
    .ok (call, engine)
  | _, _ => .error Fatal.builderNotSetup

/-! ## The shared calibration resource -/

/-- Modelled from the spec: the state of a live `TRTInt8Calibrator` (its header
`trt_int8_calibrator.h` is not among the sources): the completion flag polled by `isDone`,
the per-step batch size set by `setBatchSize`, and the batches handed over by `setBatch`. -/
structure TRTInt8Calibrator where
  done : Bool
  batch_size : Option Int
  batches : List (List (Option Parameter))
  deriving DecidableEq, Repr

/-- The captures of the thread lambda at line 164: `this` (only `builder_` and `network_`
are read through it, and nothing in the file assigns them), `ordinal`, `batch_size`,
`run_options`; `res` is the resource the record is stored in. -/
structure CalibrationThread where
  self : Executable
  ordinal : Nat
  batch_size : Int
  run_options : ExecutableRunOptions
  deriving DecidableEq, Repr

/-- Modelled from the spec: the record `TRTInt8CalibratorResource` (declared in the missing
header): a calibrator, the background-built engine and the worker thread. -/
structure TRTInt8CalibratorResource where
  calibrator : Option TRTInt8Calibrator
  engine : Option ICudaEngine
  thread : Option CalibrationThread
  deriving DecidableEq, Repr

/-- Modelled from the spec: the process-wide registry behind
`TRTInt8CalibratorResource::LookupOrCreate`, keyed by executable name. -/
def Registry : Type := String → TRTInt8CalibratorResource

/-- The resource every name has before anything was stored in it. -/
def emptyResource : TRTInt8CalibratorResource :=
  { calibrator := none, engine := none, thread := none }

/-- Modelled from the spec: `LookupOrCreate(name)` yields the one resource of that name,
an empty one when the name was never seen. -/
def LookupOrCreate (registry : Registry) (name : String) : TRTInt8CalibratorResource :=
  registry name

/-- Writing through the pointer `res` of the resource of `name`. -/
def Registry.store (registry : Registry) (name : String) (res : TRTInt8CalibratorResource) :
    Registry :=
  fun n => if n = name then res else registry n

/-- The registry in which no name has a calibrator, an engine or a thread. -/
def Registry.empty : Registry := fun _ => emptyResource

/-! ## Events -/

/-- The calls `Run` makes outside the executable, in program order. -/
inductive Event where
  | loadCalibrationTable (path : String)
  | createEngine (call : BuildCall) (built : Bool)
  | rebuildWarning (max_batch_size : Int) (batch_size : Int)
  | lookupOrCreate (name : String)
  | spawnThread (name : String) (ordinal : Nat) (batch_size : Int)
  | setBatch (name : String) (binding_params : List (Option Parameter))
  | adoptCalibrator (name : String)
  | streamSynchronize (stream : Nat)
  | enqueue (context : IExecutionContext) (buffers : List Nat) (stream : Nat)
  deriving DecidableEq, Repr

/-- State threaded through `Run`, kept also when the call ends in a fatal condition. -/
structure Outcome where
  exe : Executable
  registry : Registry
  log : List Event
  result : Except Fatal Bool

/-! ## LoadCalibrationTable and the phases of Run -/

/-- The member function `TrtExecutable::LoadCalibrationTable`: the whole content of
`calibration_path/name`, fatal when the file cannot be opened. -/
def LoadCalibrationTable (env : Env) (exe : Executable) (calibration_path : String) :
    Except Fatal String :=
  let calib_restore_path := calibration_path ++ "/" ++ exe.name
  match env.readFile calib_restore_path with
  | some content => .ok content
  | none => .error (Fatal.calibrationFileNotFound calib_restore_path)

/-- Lines 109-115: load a calibration table into a fresh local calibrator. -/
def loadCalibrator (env : Env) (exe : Executable) (run_options : ExecutableRunOptions) :
    List Event × Except Fatal Executable :=
  if run_options.common.use_int8 && exe.calibrator.isNone &&
      decide (run_options.common.int8_calibration.length ≠ 0) then
    let ev := [Event.loadCalibrationTable (run_options.common.int8_calibration ++ "/" ++ exe.name)]
    match LoadCalibrationTable env exe run_options.common.int8_calibration with
    | .error f => (ev, .error f)
    | .ok calibration_data =>
      if calibration_data.length ≠ 0 then
        (ev, .ok { exe with calibrator := some (CalibratorRef.fromTable calibration_data) })
      else (ev, .error Fatal.calibrationDataEmpty)
  else ([], .ok exe)

/-- Lines 116-120: build the first engine, with batch size 1, when the executable has
neither a context nor an engine. -/
def ensureEngine (env : Env) (exe : Executable) (run_options : ExecutableRunOptions) :
    List Event × Except Fatal Executable :=
  if exe.execution_context.isNone && exe.engine.isNone then
    match CreateExecutableEngine env exe run_options 1 exe.calibrator with
    | .error f => ([], .error f)
    | .ok (call, some engine) =>
      ([Event.createEngine call true], .ok { exe with engine := some engine })
    | .ok (call, none) => ([Event.createEngine call false], .error Fatal.cannotCreateEngine)
  else ([], .ok exe)

/-- The C string a call like `name().data()` hands to a C interface: the characters of
the name before its first NUL character. -/
def cString (name : String) : String :=
  String.mk (name.data.takeWhile (fun c => c != Char.ofNat 0))

/-- The engine query `getBindingIndex(name.data())` of lines 130 and 138: the slot whose
name is the C string of `name`, `-1` if there is none. -/
def getBindingIndex (engine : ICudaEngine) (name : String) : Int :=
  if cString name ∈ engine.bindings then (engine.bindings.indexOf (cString name) : Int) else -1

/-- The body of the loops at lines 128-143 on the two arrays `binding_params` and `buffers`. -/
def bindParameter (engine : ICudaEngine) (acc : List (Option Parameter) × List Nat)
    (p : Parameter) : List (Option Parameter) × List Nat :=
  let index := getBindingIndex engine p.name
  if index > -1 then (acc.1.set index.toNat (some p), acc.2.set index.toNat p.data) else acc

/-- Lines 125-143: both arrays start with `num_bindings` null entries; the inputs are
bound first, then the results. -/
def resolveBindings (engine : ICudaEngine) (inputs results : List Parameter) :
    List (Option Parameter) × List Nat :=
  let num_bindings := engine.bindings.length
  let init : List (Option Parameter) × List Nat :=
    (List.replicate num_bindings none, List.replicate num_bindings 0)
  results.foldl (bindParameter engine) (inputs.foldl (bindParameter engine) init)

/-- Line 145: `binding_params[0]->shape().At(0)` narrowed to `int`. Slot 0 holding a null
pointer (or not existing) is a null dereference; a shape without axes fails the range check. -/
def batchSizeOf (binding_params : List (Option Parameter)) : Except Fatal Int :=
  match binding_params with
  | some p :: _ =>
    match p.shape with
    | d :: _ => .ok (toInt32 d)
    | [] => .error Fatal.shapeIndexOutOfRange
  | _ => .error Fatal.nullDereference

/-- Lines 146-154: rebuild when the batch size exceeds the maximum of `engine`
(the non-null `engine_`). -/
def ensureCapacity (env : Env) (exe : Executable) (engine : ICudaEngine)
    (run_options : ExecutableRunOptions) (batch_size : Int) :
    Executable × List Event × Option Fatal :=
  if batch_size > engine.max_batch_size then
    let warn := Event.rebuildWarning engine.max_batch_size batch_size
    match CreateExecutableEngine env exe run_options batch_size exe.calibrator with
    | .error f => (exe, [warn], some f)
    | .ok (call, some rebuilt) =>
      ({ exe with engine := some rebuilt, execution_context := some { engine := rebuilt } },
        [warn, Event.createEngine call true], none)
    | .ok (call, none) =>
      ({ exe with engine := none }, [warn, Event.createEngine call false],
        some (Fatal.failedToRebuildEngine batch_size))
  else (exe, [], none)

/-- Lines 157-173: look up the resource of the executable name and, in the section
guarded by `res->mutex_`, create the shared calibrator and spawn the background thread
when the resource has no calibrator yet. -/
def guardedSection (env : Env) (registry : Registry) (exe : Executable)
    (run_options : ExecutableRunOptions) (batch_size : Int) : Registry × List Event :=
  let res := LookupOrCreate registry exe.name
  if res.calibrator.isNone then
    let ordinal := env.deviceId
    (registry.store exe.name
        { res with
          calibrator := some { done := false, batch_size := none, batches := [] }
          thread := some { self := exe, ordinal := ordinal, batch_size := batch_size,
                           run_options := run_options } },
      [Event.lookupOrCreate exe.name, Event.spawnThread exe.name ordinal batch_size])
  else (registry, [Event.lookupOrCreate exe.name])

/-- Lines 175-183: poll the completion flag through the pointer `res`; when done,
synchronise the stream and take over the shared calibrator and a context on the shared
engine; otherwise hand the bindings of this call to the shared calibrator. -/
def pollCalibrator (env : Env) (registry : Registry) (exe : Executable)
    (run_options : ExecutableRunOptions) (binding_params : List (Option Parameter)) :
    Executable × Registry × List Event × Option Fatal :=
  let res := LookupOrCreate registry exe.name
  match res.calibrator with
  | none => (exe, registry, [], some Fatal.nullDereference)
  | some c =>
    if c.done then
      let ev := [Event.streamSynchronize run_options.stream]
      if env.streamSynchronizeOk run_options.stream then
        let exe1 := { exe with calibrator := some (CalibratorRef.shared exe.name) }
        match res.engine with
        | some shared =>
          ({ exe1 with execution_context := some { engine := shared } }, registry,
            ev ++ [Event.adoptCalibrator exe.name], none)
        | none => (exe1, registry, ev, some Fatal.nullDereference)
      else (exe, registry, ev, some Fatal.streamSynchronizeFailed)
    else
      let c1 := { c with batches := c.batches ++ [binding_params] }
      (exe, registry.store exe.name { res with calibrator := some c1 },
        [Event.setBatch exe.name binding_params], none)

/-- Lines 156-184: the calibration coordinator, entered when int8 is requested and the
executable has no calibrator. -/
def coordinate (env : Env) (registry : Registry) (exe : Executable)
    (run_options : ExecutableRunOptions) (batch_size : Int)
    (binding_params : List (Option Parameter)) :
    Executable × Registry × List Event × Option Fatal :=
  if run_options.common.use_int8 && exe.calibrator.isNone then
    let g := guardedSection env registry exe run_options batch_size
    let r := pollCalibrator env g.1 exe run_options binding_params
    (r.1, r.2.1, g.2 ++ r.2.2.1, r.2.2.2)
  else (exe, registry, [], none)

/-- The member function `TrtExecutable::ExecuteEngine` (lines 81-92). -/
def ExecuteEngine (env : Env) (exe : Executable) (_batch_size : Int) (buffers : List Nat)
    (stream : Nat) (block_until_done : Bool) : Executable × List Event × Except Fatal Bool :=
  let withContext : Except Fatal Executable :=
    match exe.execution_context with
    | some _ => .ok exe
    | none =>
      match exe.engine with
      | some engine => .ok { exe with execution_context := some { engine := engine } }
      | none => .error Fatal.nullDereference
  match withContext with
  | .error f => (exe, [], .error f)
  | .ok exe1 =>
    match exe1.execution_context with
    | none => (exe1, [], .error Fatal.nullDereference)
    | some context =>
      let status := env.enqueueV2 context buffers stream
      let ev := [Event.enqueue context buffers stream]
      if block_until_done then
        if env.streamSynchronizeOk stream then
          (exe1, ev ++ [Event.streamSynchronize stream], .ok status)
        else (exe1, ev ++ [Event.streamSynchronize stream], .error Fatal.streamSynchronizeFailed)
      else (exe1, ev, .ok status)

/-! ## Run -/

/-- The locals of `Run` at line 146: the engine `engine_` points to, the two binding
arrays and the batch size. -/
structure Prepared where
  engine : ICudaEngine
  binding_params : List (Option Parameter)
  buffers : List Nat
  batch_size : Int
  deriving DecidableEq, Repr

/-- Lines 109-145 of `Run`: calibration table, first engine, results, binding
resolution, batch size. Gives the executable and the events so far, and the locals or
the fatal condition that ended the call. -/
def prepare (env : Env) (exe : Executable) (inputs : List Parameter)
    (run_options : ExecutableRunOptions) : Executable × List Event × Except Fatal Prepared :=
  match loadCalibrator env exe run_options with
  | (log1, .error f) => (exe, log1, .error f)
  | (log1, .ok exe1) =>
  match ensureEngine env exe1 run_options with
  | (log2, .error f) => (exe1, log1 ++ log2, .error f)
  | (log2, .ok exe2) =>
  let exe3 := { exe2 with results := run_options.return_params }
  match exe3.engine with
  | none => (exe3, log1 ++ log2, .error Fatal.nullDereference)
  | some engine =>
  let bound := resolveBindings engine inputs exe3.results
  match batchSizeOf bound.1 with
  | .error f => (exe3, log1 ++ log2, .error f)
  | .ok batch_size =>
    (exe3, log1 ++ log2,
      .ok { engine := engine, binding_params := bound.1, buffers := bound.2,
            batch_size := batch_size })

/-- Lines 156-187 of `Run`: the calibration coordinator, then `ExecuteEngine`. The log
holds the events of these lines only. -/
def calibrateAndExecute (env : Env) (registry : Registry) (exe : Executable)
    (run_options : ExecutableRunOptions) (p : Prepared) (block_until_done : Bool) : Outcome :=
  match coordinate env registry exe run_options p.batch_size p.binding_params with
  | (exe5, registry1, log4, some f) =>
    { exe := exe5, registry := registry1, log := log4, result := .error f }
  | (exe5, registry1, log4, none) =>
  match ExecuteEngine env exe5 p.batch_size p.buffers run_options.stream block_until_done with
  | (exe6, log5, result) =>
    { exe := exe6, registry := registry1, log := log4 ++ log5, result := result }

/-- The member function `TrtExecutable::Run` (lines 106-188). -/
def Run (env : Env) (registry : Registry) (exe : Executable) (inputs : List Parameter)
    (run_options : ExecutableRunOptions) (block_until_done : Bool) : Outcome :=
  match prepare env exe inputs run_options with
  | (exe3, log2, .error f) =>
    { exe := exe3, registry := registry, log := log2, result := .error f }
  | (exe3, log2, .ok p) =>
  match ensureCapacity env exe3 p.engine run_options p.batch_size with
  | (exe4, log3, some f) =>
    { exe := exe4, registry := registry, log := log2 ++ log3, result := .error f }
  | (exe4, log3, none) =>
    let out := calibrateAndExecute env registry exe4 run_options p block_until_done
    { out with log := log2 ++ log3 ++ out.log }

/-! ## Sequences of calls -/

/-- One later call on an executable: the environment and the registry it finds
(both may have changed since the previous call) and the arguments of `Run`. -/
structure Call where
  env : Env
  registry : Registry
  inputs : List Parameter
  run_options : ExecutableRunOptions
  block_until_done : Bool

/-- Successive `Run` calls on one executable. A call that ends in a fatal condition
terminates the process, so it is the last one. -/
def runCalls (exe : Executable) : List Call → List Outcome
  | [] => []
  | c :: rest =>
    let out := Run c.env c.registry exe c.inputs c.run_options c.block_until_done
    match out.result with
    | .ok _ => out :: runCalls out.exe rest
    | .error _ => [out]

/-- Where a `Run` in progress stands: before the section guarded by the resource mutex
(lines 109-154 done), or after it (lines 156-173 done). -/
inductive Stage where
  | beforeGuard
  | afterGuard
  deriving DecidableEq, Repr

/-- The arguments and locals of a `Run` in progress. -/
structure Pending where
  run_options : ExecutableRunOptions
  block_until_done : Bool
  prepared : Prepared
  stage : Stage
  deriving DecidableEq, Repr

/-- The process state shared by several executables: the registry, the executables
(indexed by number) and the `Run` in progress on each, if any. -/
structure World where
  registry : Registry
  executables : Nat → Executable
  pending : Nat → Option Pending

/-- Lines 165-170, the body of the background thread of the resource `name`, run to its
end: fix the calibrator batch size to 1, build the engine with the shared calibrator,
store it in the resource. Nothing happens when no thread was spawned. -/
def threadBody (env : Env) (name : String) (res : TRTInt8CalibratorResource) :
    Except Fatal TRTInt8CalibratorResource :=
  match res.thread with
  | none => .ok res
  | some t =>
    match res.calibrator with
    | none => .error Fatal.nullDereference
    | some c =>
      let c1 := { c with batch_size := some 1 }
      match CreateExecutableEngine env t.self t.run_options t.batch_size
          (some (CalibratorRef.shared name)) with
      | .error f => .error f
      | .ok (_, engine) => .ok { res with calibrator := some c1, engine := engine }

/-- What can happen in the process. A `Run` on executable number `exe` takes three steps:
`enter` (lines 109-154), `guard` (lines 156-173, the section guarded by the resource
mutex, one atomic step) and `leave` (lines 175-187); steps of different executables,
the body of the background thread of a name and the calibrator of a name starting to
report completion interleave freely. -/
inductive Step where
  | enter (exe : Nat) (inputs : List Parameter) (run_options : ExecutableRunOptions)
      (block_until_done : Bool)
  | guard (exe : Nat)
  | leave (exe : Nat)
  | threadRun (name : String)
  | calibratorDone (name : String)

/-- Modelled from the spec: the calibrator of `name`, when there is one, from now on
answers `isDone` with true (the completion flag of the missing class `TRTInt8Calibrator`). -/
def markDone (registry : Registry) (name : String) : Registry :=
  match (registry name).calibrator with
  | some c => registry.store name { registry name with calibrator := some { c with done := true } }
  | none => registry

/-- Replace executable number `i`. -/
def World.setExecutable (w : World) (i : Nat) (exe : Executable) : World :=
  { w with executables := fun j => if j = i then exe else w.executables j }

/-- Replace the `Run` in progress on executable number `i`. -/
def World.setPending (w : World) (i : Nat) (pd : Option Pending) : World :=
  { w with pending := fun j => if j = i then pd else w.pending j }

/-- One step of the process: the world after it, the events of the step, and the fatal
condition if the step terminated the process. A step that is not enabled (a second
`enter` on an executable with a `Run` in progress, a `guard` or `leave` out of turn)
changes nothing. -/
def step (env : Env) (w : World) : Step → World × List Event × Option Fatal
  | .enter i inputs run_options block_until_done =>
    match w.pending i with
    | some _ => (w, [], none)
    | none =>
      match prepare env (w.executables i) inputs run_options with
      | (exe3, log2, .error f) => (w.setExecutable i exe3, log2, some f)
      | (exe3, log2, .ok p) =>
        match ensureCapacity env exe3 p.engine run_options p.batch_size with
        | (exe4, log3, some f) => (w.setExecutable i exe4, log2 ++ log3, some f)
        | (exe4, log3, none) =>
          ((w.setExecutable i exe4).setPending i
              (some { run_options := run_options, block_until_done := block_until_done,
                      prepared := p, stage := Stage.beforeGuard }),
            log2 ++ log3, none)
  | .guard i =>
    match w.pending i with
    | some pd =>
      match pd.stage with
      | .beforeGuard =>
        if pd.run_options.common.use_int8 && (w.executables i).calibrator.isNone then
          let g := guardedSection env w.registry (w.executables i) pd.run_options
            pd.prepared.batch_size
          (({ w with registry := g.1 } : World).setPending i
              (some { pd with stage := Stage.afterGuard }), g.2, none)
        else (w.setPending i (some { pd with stage := Stage.afterGuard }), [], none)
      | .afterGuard => (w, [], none)
    | none => (w, [], none)
  | .leave i =>
    match w.pending i with
    | some pd =>
      match pd.stage with
      | .beforeGuard => (w, [], none)
      | .afterGuard =>
        let r : Executable × Registry × List Event × Option Fatal :=
          if pd.run_options.common.use_int8 && (w.executables i).calibrator.isNone then
            pollCalibrator env w.registry (w.executables i) pd.run_options
              pd.prepared.binding_params
          else (w.executables i, w.registry, [], none)
        match r with
        | (exe5, registry1, log4, some f) =>
          ((({ w with registry := registry1 } : World).setExecutable i exe5).setPending i none,
            log4, some f)
        | (exe5, registry1, log4, none) =>
          match ExecuteEngine env exe5 pd.prepared.batch_size pd.prepared.buffers
              pd.run_options.stream pd.block_until_done with
          | (exe6, log5, result) =>
            ((({ w with registry := registry1 } : World).setExecutable i exe6).setPending i none,
              log4 ++ log5,
              match result with
              | .ok _ => none
              | .error f => some f)
    | none => (w, [], none)
  | .threadRun name =>
    match threadBody env name (w.registry name) with
    | .ok res => ({ w with registry := w.registry.store name res }, [], none)
    | .error f => (w, [], some f)
  | .calibratorDone name => ({ w with registry := markDone w.registry name }, [], none)

/-- A sequence of steps; a fatal condition ends it. -/
def runSteps (env : Env) (w : World) : List Step → World × List Event × Option Fatal
  | [] => (w, [], none)
  | s :: rest =>
    match step env w s with
    | (w1, log, some f) => (w1, log, some f)
    | (w1, log, none) =>
      let r := runSteps env w1 rest
      (r.1, log ++ r.2.1, r.2.2)

/-- Whether an event is the spawn of the background thread of `name`. -/
def isSpawnOf (name : String) : Event → Bool
  | .spawnThread n _ _ => decide (n = name)
  | _ => false

/-- Number of background threads spawned for `name` in an event list. -/
def threadsSpawned (name : String) (log : List Event) : Nat :=
  (log.filter (isSpawnOf name)).length

/-- Whether an event belongs to the calibration coordinator or to the loading of a
calibration table. -/
def isCalibrationEvent : Event → Bool
  | .loadCalibrationTable _ => true
  | .lookupOrCreate _ => true
  | .spawnThread _ _ _ => true
  | .setBatch _ _ => true
  | .adoptCalibrator _ => true
  | _ => false

/-- Whether an event is a build request to the builder. -/
def isCreateEngine : Event → Bool
  | .createEngine _ _ => true
  | _ => false

/-- Whether an event is the rebuild diagnostic of line 147. -/
def isRebuild : Event → Bool
  | .rebuildWarning _ _ => true
  | _ => false

/-- The contexts the device enqueue of a call ran on. -/
def enqueuedContexts : List Event → List IExecutionContext
  | [] => []
  | .enqueue context _ _ :: rest => context :: enqueuedContexts rest
  | _ :: rest => enqueuedContexts rest

/-! ## Concrete data used by the witnesses -/

/-- Hardware with fast fp16 and fast int8 on which every build and enqueue succeeds and
no calibration file exists. -/
def envAll : Env :=
  { platformHasFastFp16 := true, platformHasFastInt8 := true, buildSucceeds := fun _ _ => true,
    readFile := fun _ => none, enqueueV2 := fun _ _ _ => true,
    streamSynchronizeOk := fun _ => true, deviceId := 0 }

/-- Hardware with fast int8 but without fast fp16. -/
def envInt8Only : Env := { envAll with platformHasFastFp16 := false }

/-- A fresh executable named conv_block over a network with the bindings x and y. -/
def exeFresh : Executable :=
  { name := "conv_block", builder := true, network := some ["x", "y"], engine := none,
    execution_context := none, calibrator := none, results := [] }

/-- Options asking for fp16 and int8 without a calibration table; floor of the batch 4. -/
def optsBoth : ExecutableRunOptions :=
  { common := { use_fp16 := true, use_int8 := true, int8_calibration := "",
                max_batch_size := 4, max_workspace_size := 0 },
    stream := 7, return_params := [] }

/-- Options asking for neither fp16 nor int8; floor of the batch 4. -/
def optsPlain : ExecutableRunOptions :=
  { common := { use_fp16 := false, use_int8 := false, int8_calibration := "",
                max_batch_size := 4, max_workspace_size := 0 },
    stream := 7, return_params := [] }

/-- Options asking for int8 with the calibration directory /calib. -/
def optsTable : ExecutableRunOptions :=
  { common := { use_fp16 := false, use_int8 := true, int8_calibration := "/calib",
                max_batch_size := 4, max_workspace_size := 0 },
    stream := 7, return_params := [] }

/-- An input for the binding x with batch 1. -/
def paramX : Parameter := { name := "x", shape := [1, 3], data := 100 }

/-- A buffer for the binding y with batch 8. -/
def paramY : Parameter := { name := "y", shape := [8, 3], data := 200 }

/-- A buffer whose name is no binding of the network. -/
def paramZ : Parameter := { name := "z", shape := [1, 3], data := 300 }

/-- A buffer with batch 8 whose name is x, a NUL character and z: no binding carries that
name, but its C string is x. -/
def paramNul : Parameter := { name := "x\x00z", shape := [8, 3], data := 300 }

/-- An input for the binding x with batch 8. -/
def paramX8 : Parameter := { name := "x", shape := [8, 3], data := 100 }

/-- A full-precision engine with maximum batch size 4 over the bindings x and y. -/
def engine4 : ICudaEngine :=
  { config := { max_workspace_size := 16777216, flags := 0, int8_calibrator := none },
    max_batch_size := 4, bindings := ["x", "y"] }

/-- The executable conv_block after a first call: it holds `engine4` and a context on it. -/
def exeReady : Executable :=
  { exeFresh with engine := some engine4, execution_context := some { engine := engine4 } }

/-- Options asking for int8 without a calibration table; floor of the batch 4. -/
def optsInt8 : ExecutableRunOptions :=
  { common := { use_fp16 := false, use_int8 := true, int8_calibration := "",
                max_batch_size := 4, max_workspace_size := 0 },
    stream := 7, return_params := [] }

/-- The engine the background thread of conv_block builds on `envAll`: INT8 and FP16
enabled, calibrated by the shared calibrator, maximum batch size 4. -/
def engineInt8 : ICudaEngine :=
  { config := { max_workspace_size := 16777216, flags := 3,
                int8_calibrator := some (CalibratorRef.shared "conv_block") },
    max_batch_size := 4, bindings := ["x", "y"] }

/-- The resource of conv_block once the background thread has stored its engine and the
calibrator reports completion. -/
def resourceBuilt : TRTInt8CalibratorResource :=
  { calibrator := some { done := true, batch_size := some 1,
                         batches := [[some paramX, none]] }
    engine := some engineInt8
    thread := some { self := { exeFresh with engine := some engine4 }, ordinal := 0,
                     batch_size := 1, run_options := optsInt8 } }

/-- The registry holding `resourceBuilt` for conv_block. -/
def registryBuilt : Registry := Registry.empty.store "conv_block" resourceBuilt

/-- The executable conv_block after it adopted the shared calibrator: its own engine is
still `engine4`, its context runs on `engineInt8`. -/
def exeAdopted : Executable :=
  { exeReady with calibrator := some (CalibratorRef.shared "conv_block"),
                  execution_context := some { engine := engineInt8 } }

/-- The rebuilt engine of a later call with batch 8 and `optsPlain` on `exeAdopted`:
full precision, no calibrator, maximum batch size 8. -/
def engine8 : ICudaEngine := { engine4 with max_batch_size := 8 }

/-- A later call with batch 8 and without int8 request, finding `registryBuilt`. -/
def callBatch8 : Call :=
  { env := envAll, registry := registryBuilt, inputs := [paramX8], run_options := optsPlain,
    block_until_done := false }

/-- A later call with batch 1 and an int8 request with a calibration directory. -/
def callBatch1 : Call :=
  { env := envAll, registry := registryBuilt, inputs := [paramX], run_options := optsTable,
    block_until_done := true }

/-- Two fresh executables named conv_block, nothing in progress, empty registry. -/
def worldFresh : World :=
  { registry := Registry.empty, executables := fun _ => exeFresh, pending := fun _ => none }

/-- The world after executables 0 and 1 both entered a `Run` asking for int8 without a
calibration table: both stand before the guarded section. -/
def worldEntered : World :=
  (runSteps envAll worldFresh
    [Step.enter 0 [paramX] optsInt8 false, Step.enter 1 [paramX] optsInt8 false]).1

/-- The `Run` in progress on both executables of `worldEntered`. -/
def pendingEntered : Pending :=
  { run_options := optsInt8, block_until_done := false,
    prepared := { engine := engine4, binding_params := [some paramX, none],
                  buffers := [100, 0], batch_size := 1 },
    stage := Stage.beforeGuard }

/-! ## Lemmas on the precision flags -/

/-- The flag word computed by lines 44-66, as a sum of the two masks. -/
theorem precisionConfig_flags (env : Env) (common : CommonOptions)
    (calibrator : Option CalibratorRef) :
    (precisionConfig env common calibrator).1 =
      (if env.platformHasFastFp16 &&
          (common.use_fp16 || (common.use_int8 && env.platformHasFastInt8 && calibrator.isSome))
        then 1 else 0) +
      (if common.use_int8 && env.platformHasFastInt8 && calibrator.isSome then 2 else 0) := by
  cases calibrator <;> cases h1 : common.use_fp16 <;> cases h2 : common.use_int8 <;>
    cases h3 : env.platformHasFastFp16 <;> cases h4 : env.platformHasFastInt8 <;>
    simp [precisionConfig, flagBit, BuilderFlag.toInt, h1, h2, h3, h4]

/-- Bits of a word made of the masks 1 and 2. -/
theorem testBit_small (b1 b2 : Bool) (k : Nat) :
    Nat.testBit ((if b1 then 1 else 0) + (if b2 then 2 else 0)) k =
      if k = 0 then b1 else if k = 1 then b2 else false := by
  match k with
  | 0 => cases b1 <;> cases b2 <;> simp
  | 1 => cases b1 <;> cases b2 <;> simp <;> decide
  | k + 2 =>
    have : (if b1 then 1 else 0) + (if b2 then 2 else 0) < 2 ^ (k + 2) := by
      have : (4 : Nat) ≤ 2 ^ (k + 2) := by
        calc 4 = 2 ^ 2 := by norm_num
          _ ≤ 2 ^ (k + 2) := Nat.pow_le_pow_right (by norm_num) (by omega)
      cases b1 <;> cases b2 <;> simp <;> omega
    simp [Nat.testBit_lt_two_pow this]

/-- With builder and network set up, `CreateExecutableEngine` reaches the builder with
exactly the calls of `buildCall`. -/
theorem CreateExecutableEngine_ok (env : Env) (exe : Executable)
    (run_options : ExecutableRunOptions) (batch_size : Int) (calibrator : Option CalibratorRef)
    (net : List String) (hb : exe.builder = true) (hn : exe.network = some net) :
    ∃ engine, CreateExecutableEngine env exe run_options batch_size calibrator =
      .ok (buildCall env run_options batch_size calibrator, engine) := by
  simp [CreateExecutableEngine, hb, hn]

/-! ## C1, C2, C6: CreateExecutableEngine -/

/-- C1. Whenever builder and network are set up, `CreateExecutableEngine` reaches the
builder, and the flag word it sets on the build config has the INT8 bit exactly when
int8 is requested, the hardware has fast int8 and a calibrator is supplied; the FP16 bit
exactly when the hardware has fast fp16 and (fp16 is requested or INT8 was enabled); and
no other bit. -/
theorem C1_precision_flags (env : Env) (exe : Executable) (run_options : ExecutableRunOptions)
    (batch_size : Int) (calibrator : Option CalibratorRef) (net : List String)
    (hb : exe.builder = true) (hn : exe.network = some net) :
    ∃ call engine,
      CreateExecutableEngine env exe run_options batch_size calibrator = .ok (call, engine) ∧
      call.config.flags.testBit BuilderFlag.kINT8.toInt =
        (run_options.common.use_int8 && env.platformHasFastInt8 && calibrator.isSome) ∧
      call.config.flags.testBit BuilderFlag.kFP16.toInt =
        (env.platformHasFastFp16 &&
          (run_options.common.use_fp16 ||
            (run_options.common.use_int8 && env.platformHasFastInt8 && calibrator.isSome))) ∧
      ∀ k, k ≠ BuilderFlag.kFP16.toInt → k ≠ BuilderFlag.kINT8.toInt →
        call.config.flags.testBit k = false := by
  obtain ⟨engine, h⟩ :=
    CreateExecutableEngine_ok env exe run_options batch_size calibrator net hb hn
  refine ⟨_, engine, h, ?_, ?_, ?_⟩
  · simp only [buildCall, precisionConfig_flags, testBit_small, BuilderFlag.toInt]
    simp
  · simp only [buildCall, precisionConfig_flags, testBit_small, BuilderFlag.toInt]
    simp
  · intro k h0 h1
    simp only [BuilderFlag.toInt] at h0 h1
    simp only [buildCall, precisionConfig_flags, testBit_small]
    simp [h0, h1]

/-- Witness of C1 on hardware with both fast paths, both precisions requested and a
calibrator from a table. -/
theorem C1_precision_flags_witness :
    ∃ call engine,
      CreateExecutableEngine envAll exeFresh optsBoth 1 (some (CalibratorRef.fromTable "t")) =
        .ok (call, engine) ∧
      call.config.flags.testBit BuilderFlag.kINT8.toInt =
        (optsBoth.common.use_int8 && envAll.platformHasFastInt8 &&
          (some (CalibratorRef.fromTable "t")).isSome) ∧
      call.config.flags.testBit BuilderFlag.kFP16.toInt =
        (envAll.platformHasFastFp16 &&
          (optsBoth.common.use_fp16 ||
            (optsBoth.common.use_int8 && envAll.platformHasFastInt8 &&
              (some (CalibratorRef.fromTable "t")).isSome))) ∧
      ∀ k, k ≠ BuilderFlag.kFP16.toInt → k ≠ BuilderFlag.kINT8.toInt →
        call.config.flags.testBit k = false :=
  C1_precision_flags envAll exeFresh optsBoth 1 (some (CalibratorRef.fromTable "t")) ["x", "y"]
    rfl rfl

/-- C2, counterexample. With `max_batch_size = 2147483648` and a requested minimum of 1
the builder is set to a maximum batch size of 1, not to `max 2147483648 1`. -/
theorem C2_counterexample :
    ∃ call engine,
      CreateExecutableEngine envAll exeFresh
        { optsBoth with common := { optsBoth.common with max_batch_size := 2147483648 } } 1 none =
        .ok (call, engine) ∧
      call.max_batch_size = 1 ∧ call.max_batch_size ≠ max 2147483648 1 := by
  refine ⟨_, _, rfl, ?_, ?_⟩ <;> decide

/-- C2, amended. The maximum batch size set on the builder is the larger of
`max_batch_size` narrowed to 32 bits and the requested minimum; it is
`max max_batch_size batch_size` whenever `max_batch_size` fits a signed 32-bit integer. -/
theorem C2_max_batch_size (env : Env) (exe : Executable) (run_options : ExecutableRunOptions)
    (batch_size : Int) (calibrator : Option CalibratorRef) (net : List String)
    (hb : exe.builder = true) (hn : exe.network = some net) :
    ∃ call engine,
      CreateExecutableEngine env exe run_options batch_size calibrator = .ok (call, engine) ∧
      call.max_batch_size = max (toInt32 run_options.common.max_batch_size) batch_size ∧
      (-2147483648 ≤ run_options.common.max_batch_size →
        run_options.common.max_batch_size < 2147483648 →
        call.max_batch_size = max run_options.common.max_batch_size batch_size) := by
  obtain ⟨engine, h⟩ :=
    CreateExecutableEngine_ok env exe run_options batch_size calibrator net hb hn
  refine ⟨_, engine, h, rfl, ?_⟩
  intro h1 h2
  have : toInt32 run_options.common.max_batch_size = run_options.common.max_batch_size := by
    unfold toInt32
    omega
  simp [buildCall, this]

/-- Witness of C2 (amended): floor 4, requested minimum 8. -/
theorem C2_max_batch_size_witness :
    ∃ call engine,
      CreateExecutableEngine envAll exeFresh optsBoth 8 none = .ok (call, engine) ∧
      call.max_batch_size = max (toInt32 optsBoth.common.max_batch_size) 8 ∧
      (-2147483648 ≤ optsBoth.common.max_batch_size →
        optsBoth.common.max_batch_size < 2147483648 →
        call.max_batch_size = max optsBoth.common.max_batch_size 8) :=
  C2_max_batch_size envAll exeFresh optsBoth 8 none ["x", "y"] rfl rfl

/-- C6, counterexample. fp16 and int8 requested, hardware without fast fp16 but with
fast int8, a calibrator supplied: the INT8 bit is set, the engine is not full precision. -/
theorem C6_counterexample :
    optsBoth.common.use_fp16 = true ∧ envInt8Only.platformHasFastFp16 = false ∧
    ∃ call engine,
      CreateExecutableEngine envInt8Only exeFresh optsBoth 1
        (some (CalibratorRef.fromTable "t")) = .ok (call, engine) ∧
      call.config.flags.testBit BuilderFlag.kINT8.toInt = true := by
  refine ⟨rfl, rfl, _, _, rfl, ?_⟩
  decide

/-- C6, amended. With fp16 requested on hardware without fast fp16, and builder and
network set up, `CreateExecutableEngine` reaches the builder without a fatal condition;
the FP16 bit is never set; the INT8 bit is set exactly when int8 is requested, the
hardware has fast int8 and a calibrator is supplied; without an int8 request the flag
word is 0 (full precision). -/
theorem C6_fp16_fallback (env : Env) (exe : Executable) (run_options : ExecutableRunOptions)
    (batch_size : Int) (calibrator : Option CalibratorRef) (net : List String)
    (hb : exe.builder = true) (hn : exe.network = some net)
    (hreq : run_options.common.use_fp16 = true) (hhw : env.platformHasFastFp16 = false) :
    ∃ call engine,
      CreateExecutableEngine env exe run_options batch_size calibrator = .ok (call, engine) ∧
      call.config.flags.testBit BuilderFlag.kFP16.toInt = false ∧
      call.config.flags.testBit BuilderFlag.kINT8.toInt =
        (run_options.common.use_int8 && env.platformHasFastInt8 && calibrator.isSome) ∧
      (run_options.common.use_int8 = false → call.config.flags = 0) ∧
      Diagnostic.fp16Unsupported ∈ call.diagnostics := by
  obtain ⟨engine, h⟩ :=
    CreateExecutableEngine_ok env exe run_options batch_size calibrator net hb hn
  refine ⟨_, engine, h, ?_, ?_, ?_, ?_⟩
  · simp only [buildCall, precisionConfig_flags, testBit_small, BuilderFlag.toInt]
    simp [hhw]
  · simp only [buildCall, precisionConfig_flags, testBit_small, BuilderFlag.toInt]
    simp
  · intro h8
    simp only [buildCall, precisionConfig_flags]
    simp [hhw, h8]
  · cases calibrator <;> cases h2 : run_options.common.use_int8 <;>
      cases h4 : env.platformHasFastInt8 <;>
      simp [buildCall, precisionConfig, hreq, hhw, h2, h4]

/-- Witness of C6 (amended): fp16 requested alone on hardware without fast fp16. -/
theorem C6_fp16_fallback_witness :
    ∃ call engine,
      CreateExecutableEngine envInt8Only exeFresh
        { optsBoth with common := { optsBoth.common with use_int8 := false } } 1 none =
        .ok (call, engine) ∧
      call.config.flags.testBit BuilderFlag.kFP16.toInt = false ∧
      call.config.flags.testBit BuilderFlag.kINT8.toInt =
        (false && envInt8Only.platformHasFastInt8 && (none : Option CalibratorRef).isSome) ∧
      (false = false → call.config.flags = 0) ∧
      Diagnostic.fp16Unsupported ∈ call.diagnostics :=
  C6_fp16_fallback envInt8Only exeFresh
    { optsBoth with common := { optsBoth.common with use_int8 := false } } 1 none ["x", "y"]
    rfl rfl rfl rfl

/-! ## C5: a missing or empty calibration table -/

/-- C5. A `Run` on an executable without calibrator, with int8 requested and a non-empty
calibration path, whose file `path/name` is missing or empty, ends in a fatal condition
(file not found, respectively empty data); the only event is the attempt to load the
table, so no engine build was attempted, and the executable (engine and execution
context included) and the registry are left as they were. -/
theorem C5_missing_table_is_fatal (env : Env) (registry : Registry) (exe : Executable)
    (inputs : List Parameter) (run_options : ExecutableRunOptions) (block_until_done : Bool)
    (hcal : exe.calibrator = none) (h8 : run_options.common.use_int8 = true)
    (hpath : run_options.common.int8_calibration.length ≠ 0)
    (hfile : env.readFile (run_options.common.int8_calibration ++ "/" ++ exe.name) = none ∨
      ∃ content, env.readFile (run_options.common.int8_calibration ++ "/" ++ exe.name) =
        some content ∧ content.length = 0) :
    (Run env registry exe inputs run_options block_until_done).result =
      (if env.readFile (run_options.common.int8_calibration ++ "/" ++ exe.name) = none then
        .error (Fatal.calibrationFileNotFound
          (run_options.common.int8_calibration ++ "/" ++ exe.name))
       else .error Fatal.calibrationDataEmpty) ∧
    (∀ e ∈ (Run env registry exe inputs run_options block_until_done).log,
      isCreateEngine e = false) ∧
    (Run env registry exe inputs run_options block_until_done).exe.engine = exe.engine ∧
    (Run env registry exe inputs run_options block_until_done).exe.execution_context =
      exe.execution_context ∧
    (Run env registry exe inputs run_options block_until_done).exe = exe := by
  rcases hfile with hnone | ⟨content, hsome, hempty⟩
  · simp [Run, prepare, loadCalibrator, LoadCalibrationTable, hcal, h8, hpath, hnone,
      isCreateEngine]
  · simp [Run, prepare, loadCalibrator, LoadCalibrationTable, hcal, h8, hpath, hsome, hempty,
      isCreateEngine]

/-- Witness of C5: the scenario of the calibration directory /calib and the executable
conv_block, no file present. -/
theorem C5_missing_table_is_fatal_witness :
    (Run envAll Registry.empty exeFresh [paramX] optsTable false).result =
      .error (Fatal.calibrationFileNotFound "/calib/conv_block") ∧
    (∀ e ∈ (Run envAll Registry.empty exeFresh [paramX] optsTable false).log,
      isCreateEngine e = false) :=
  have h := C5_missing_table_is_fatal envAll Registry.empty exeFresh [paramX] optsTable false
    rfl rfl (by decide) (Or.inl rfl)
  ⟨h.1, h.2.1⟩

/-! ## C8: the batch size is read from slot 0 -/

/-- C8, the code at the failing input. Only the binding y (slot 1) is supplied, with
batch 8, and slot 0 stays unbound: binding resolution leaves a null pointer in slot 0 and
`Run` ends in the null dereference of line 145 instead of using the batch size 8 of
the lowest bound slot. -/
theorem C8_slot0_unbound_null_dereference :
    (Run envAll Registry.empty exeFresh [paramY] optsPlain false).result =
      .error Fatal.nullDereference ∧
    (∀ engine, (Run envAll Registry.empty exeFresh [paramY] optsPlain false).exe.engine =
        some engine →
      (resolveBindings engine [paramY] optsPlain.return_params).1 = [none, some paramY]) := by
  refine ⟨rfl, ?_⟩
  intro engine h
  have h2 : (Run envAll Registry.empty exeFresh [paramY] optsPlain false).exe.engine =
      some { config := { max_workspace_size := 16777216, flags := 0, int8_calibrator := none },
             max_batch_size := 4, bindings := ["x", "y"] } := rfl
  rw [h2] at h
  cases h
  rfl

/-! ## Binding resolution and the first phases of Run -/


theorem bindParameter_unknown (engine : ICudaEngine) (acc : List (Option Parameter) × List Nat)
    (p : Parameter) (h : cString p.name ∉ engine.bindings) :
    bindParameter engine acc p = acc := by
  simp [bindParameter, getBindingIndex, h]

theorem resolveBindings_unknown (engine : ICudaEngine) (pre post results : List Parameter)
    (extra : Parameter) (h : cString extra.name ∉ engine.bindings) :
    resolveBindings engine (pre ++ extra :: post) results =
      resolveBindings engine (pre ++ post) results := by
  simp [resolveBindings, List.foldl_append, bindParameter_unknown engine _ extra h]

theorem bindParameter_length (engine : ICudaEngine) (acc : List (Option Parameter) × List Nat)
    (p : Parameter) :
    (bindParameter engine acc p).1.length = acc.1.length ∧
    (bindParameter engine acc p).2.length = acc.2.length := by
  by_cases h : getBindingIndex engine p.name > -1 <;> simp [bindParameter, h]

/-- The parameter a slot holds after binding `ps` over the arrays `acc`. -/
theorem foldl_bindParameter_get (engine : ICudaEngine) (ps : List Parameter)
    (acc : List (Option Parameter) × List Nat) (i : Nat) (hi : i < acc.1.length)
    (hi2 : i < acc.2.length) :
    (ps.foldl (bindParameter engine) acc).1[i]? =
      some (match ps.reverse.find? (fun p => decide (getBindingIndex engine p.name = i)) with
        | some p => some p
        | none => acc.1.getD i none) ∧
    (ps.foldl (bindParameter engine) acc).2[i]? =
      some (match ps.reverse.find? (fun p => decide (getBindingIndex engine p.name = i)) with
        | some p => p.data
        | none => acc.2.getD i 0) := by
  induction ps generalizing acc with
  | nil => simp [List.getD, List.getElem?_eq_getElem hi, List.getElem?_eq_getElem hi2]
  | cons p ps ih =>
    have hl := bindParameter_length engine acc p
    have := ih (bindParameter engine acc p) (by omega) (by omega)
    simp only [List.foldl_cons, this, List.reverse_cons, List.find?_append]
    cases hfind : ps.reverse.find? (fun p => decide (getBindingIndex engine p.name = i)) with
    | some q => simp
    | none =>
      simp only [Option.none_or, List.find?_cons, List.find?_nil]
      by_cases hp : getBindingIndex engine p.name = i
      · have hidx : getBindingIndex engine p.name > -1 := by omega
        have hi3 : (-1 : Int) < i := by omega
        simp [hp, bindParameter, List.getD, List.getElem?_set, hi, hi2, hi3]
      · simp only [hp, decide_False]
        by_cases hidx : getBindingIndex engine p.name > -1
        · have hne : (getBindingIndex engine p.name).toNat ≠ i := by omega
          simp [bindParameter, hidx, List.getD, List.getElem?_set, hne]
        · simp [bindParameter, hidx]


theorem resolveBindings_get (engine : ICudaEngine) (inputs results : List Parameter) (i : Nat)
    (hi : i < engine.bindings.length) :
    (resolveBindings engine inputs results).1[i]? =
      some ((inputs ++ results).reverse.find?
        (fun p => decide (getBindingIndex engine p.name = i))) ∧
    (resolveBindings engine inputs results).2[i]? =
      some (match (inputs ++ results).reverse.find?
          (fun p => decide (getBindingIndex engine p.name = i)) with
        | some p => p.data
        | none => 0) := by
  have h := foldl_bindParameter_get engine (inputs ++ results)
    (List.replicate engine.bindings.length none, List.replicate engine.bindings.length 0) i
    (by simpa using hi) (by simpa using hi)
  simp only [List.foldl_append] at h
  simp only [resolveBindings]
  refine ⟨?_, ?_⟩
  · rw [h.1]
    cases (inputs ++ results).reverse.find?
      (fun p => decide (getBindingIndex engine p.name = i)) <;> simp [List.getD, hi]
  · rw [h.2]
    cases (inputs ++ results).reverse.find?
      (fun p => decide (getBindingIndex engine p.name = i)) <;> simp [List.getD, hi]

theorem loadCalibrator_ok (env : Env) (exe exe1 : Executable)
    (run_options : ExecutableRunOptions) (log : List Event)
    (h : loadCalibrator env exe run_options = (log, .ok exe1)) :
    exe1 = { exe with calibrator := exe1.calibrator } ∧
    (exe.calibrator.isSome → exe1 = exe ∧ log = []) := by
  unfold loadCalibrator at h
  split at h
  · rename_i hc
    split at h
    · simp at h
    · split at h
      · simp only [Prod.mk.injEq, Except.ok.injEq] at h
        obtain ⟨-, rfl⟩ := h
        refine ⟨rfl, ?_⟩
        intro hs
        simp [Option.isSome_iff_ne_none.mp hs] at hc
      · simp at h
  · simp only [Prod.mk.injEq, Except.ok.injEq] at h
    obtain ⟨rfl, rfl⟩ := h
    exact ⟨rfl, fun _ => ⟨rfl, rfl⟩⟩

theorem ensureEngine_ok (env : Env) (exe exe2 : Executable)
    (run_options : ExecutableRunOptions) (log : List Event)
    (h : ensureEngine env exe run_options = (log, .ok exe2)) :
    exe2 = { exe with engine := exe2.engine } ∧
    (∀ e, exe2.engine = some e → exe.engine = some e ∨ exe.network = some e.bindings) ∧
    ((exe.execution_context.isSome ∨ exe.engine.isSome) → exe2 = exe ∧ log = []) := by
  by_cases hc : (exe.execution_context.isNone && exe.engine.isNone) = true
  · have hc2 : ¬ (exe.execution_context.isSome ∨ exe.engine.isSome) := by
      cases h1 : exe.execution_context <;> cases h2 : exe.engine <;> simp_all
    cases hb : exe.builder <;> cases hn : exe.network <;>
      simp only [ensureEngine, CreateExecutableEngine, hc, hb, hn, if_true] at h <;>
      try (exact absurd h (by simp))
    rename_i net
    by_cases hs : env.buildSucceeds (buildCall env run_options 1 exe.calibrator).config
        (buildCall env run_options 1 exe.calibrator).max_batch_size = true
    · simp only [hs, if_true, Prod.mk.injEq, Except.ok.injEq] at h
      obtain ⟨-, rfl⟩ := h
      refine ⟨rfl, ?_, fun hh => absurd hh hc2⟩
      intro e he
      simp only [Option.some.injEq] at he
      subst he
      exact Or.inr rfl
    · simp [hs] at h
  · simp only [ensureEngine, hc, Prod.mk.injEq, Except.ok.injEq] at h
    simp only [Bool.false_eq_true, if_false, Prod.mk.injEq, Except.ok.injEq] at h
    obtain ⟨rfl, rfl⟩ := h
    exact ⟨rfl, fun e he => Or.inl he, fun _ => ⟨rfl, rfl⟩⟩

theorem prepare_unknown (env : Env) (exe : Executable) (pre post : List Parameter)
    (extra : Parameter) (run_options : ExecutableRunOptions)
    (hEngine : ∀ e, exe.engine = some e → cString extra.name ∉ e.bindings)
    (hNet : ∀ net, exe.network = some net → cString extra.name ∉ net) :
    prepare env exe (pre ++ extra :: post) run_options =
      prepare env exe (pre ++ post) run_options := by
  rcases h1 : loadCalibrator env exe run_options with ⟨log1, r1⟩
  cases r1 with
  | error f => simp only [prepare, h1]
  | ok exe1 =>
    have hl := (loadCalibrator_ok env exe exe1 run_options log1 h1).1
    rcases h2 : ensureEngine env exe1 run_options with ⟨log2, r2⟩
    cases r2 with
    | error f => simp only [prepare, h1, h2]
    | ok exe2 =>
      have he := (ensureEngine_ok env exe1 exe2 run_options log2 h2).2.1
      cases h3 : exe2.engine with
      | none => simp only [prepare, h1, h2, h3]
      | some engine =>
        have hnot : cString extra.name ∉ engine.bindings := by
          rcases he engine h3 with h | h
          · apply hEngine
            rw [hl] at h
            exact h
          · apply hNet
            rw [hl] at h
            exact h
        simp only [prepare, h1, h2, h3, resolveBindings_unknown engine pre post _ extra hnot]


/-! ## C4: unknown names are skipped -/

/-- C4, counterexample. The name of `paramNul` (x, NUL, z) is in no binding table, yet
the engine is asked with its C string x: the buffer is bound to slot 0, over the input
x, and `Run` with it added has another outcome (its batch 8 rebuilds the engine with
cap 4) than `Run` without it. -/
theorem C4_counterexample :
    paramNul.name ∉ engine4.bindings ∧
    (resolveBindings engine4 ([paramX] ++ paramNul :: []) []).1 = [some paramNul, none] ∧
    (resolveBindings engine4 ([paramX] ++ []) []).1 = [some paramX, none] ∧
    (Run envAll Registry.empty exeReady ([paramX] ++ paramNul :: []) optsPlain false).exe.engine
      = some engine8 ∧
    (Run envAll Registry.empty exeReady ([paramX] ++ []) optsPlain false).exe.engine =
      some engine4 ∧
    Run envAll Registry.empty exeReady ([paramX] ++ paramNul :: []) optsPlain false ≠
      Run envAll Registry.empty exeReady ([paramX] ++ []) optsPlain false := by
  refine ⟨by decide, rfl, rfl, rfl, rfl, ?_⟩
  intro h
  have h1 : (Run envAll Registry.empty exeReady ([paramX] ++ paramNul :: []) optsPlain
      false).exe.engine = some engine8 := rfl
  have h2 : (Run envAll Registry.empty exeReady ([paramX] ++ []) optsPlain false).exe.engine =
      some engine4 := rfl
  rw [h] at h1
  rw [h1] at h2
  revert h2
  decide

/-- C4, amended. The engine is asked with the C string of a name (its characters before
the first NUL). Binding resolution puts into every slot the last Parameter (inputs first,
then results) whose C-string name is the name of that slot, and its buffer pointer, and
leaves the slot null when there is none. A Parameter whose C-string name is no binding of
the engine in use (the engine the executable holds, or the one built from its network)
is ignored: inserting it anywhere into the inputs leaves both binding arrays unchanged
and `Run` has the same outcome, so it succeeds whenever it succeeded without it. -/
theorem C4_unknown_name_skipped (env : Env) (registry : Registry) (exe : Executable)
    (pre post : List Parameter) (extra : Parameter) (run_options : ExecutableRunOptions)
    (block_until_done : Bool)
    (hEngine : ∀ e, exe.engine = some e → cString extra.name ∉ e.bindings)
    (hNet : ∀ net, exe.network = some net → cString extra.name ∉ net) :
    (∀ (engine : ICudaEngine) (inputs results : List Parameter) (i : Nat),
        i < engine.bindings.length →
      (resolveBindings engine inputs results).1[i]? =
        some ((inputs ++ results).reverse.find?
          (fun p => decide (getBindingIndex engine p.name = i))) ∧
      (resolveBindings engine inputs results).2[i]? =
        some (match (inputs ++ results).reverse.find?
            (fun p => decide (getBindingIndex engine p.name = i)) with
          | some p => p.data
          | none => 0)) ∧
    (∀ engine results, cString extra.name ∉ engine.bindings →
      resolveBindings engine (pre ++ extra :: post) results =
        resolveBindings engine (pre ++ post) results) ∧
    Run env registry exe (pre ++ extra :: post) run_options block_until_done =
      Run env registry exe (pre ++ post) run_options block_until_done := by
  refine ⟨fun engine inputs results i hi => resolveBindings_get engine inputs results i hi,
    fun engine results h => resolveBindings_unknown engine pre post results extra h, ?_⟩
  simp only [Run, prepare_unknown env exe pre post extra run_options hEngine hNet]

/-- Witness of C4: the buffer z, unknown to the network with bindings x and y, is added
between the inputs x and y; the call succeeds as it does without z. -/
theorem C4_unknown_name_skipped_witness :
    Run envAll Registry.empty exeFresh ([paramX] ++ paramZ :: [paramY]) optsPlain false =
      Run envAll Registry.empty exeFresh ([paramX] ++ [paramY]) optsPlain false ∧
    (Run envAll Registry.empty exeFresh ([paramX] ++ paramZ :: [paramY]) optsPlain false).result =
      .ok true :=
  ⟨(C4_unknown_name_skipped envAll Registry.empty exeFresh [paramX] [paramY] paramZ optsPlain
      false (by intro e h; cases h) (by intro net h; cases h; decide)).2.2, rfl⟩

/-! ## The capacity check, the coordinator and ExecuteEngine -/

/-- The call `ExecuteEngine` on an executable that has a context: the executable is unchanged and
the enqueue runs on that context. -/
theorem ExecuteEngine_of_context (env : Env) (exe : Executable) (batch_size : Int)
    (buffers : List Nat) (stream : Nat) (block_until_done : Bool) (c : IExecutionContext)
    (h : exe.execution_context = some c) :
    (ExecuteEngine env exe batch_size buffers stream block_until_done).1 = exe ∧
    enqueuedContexts (ExecuteEngine env exe batch_size buffers stream block_until_done).2.1 =
      [c] := by
  cases block_until_done <;> cases hs : env.streamSynchronizeOk stream <;>
    simp [ExecuteEngine, h, hs, enqueuedContexts]

/-- The call `ExecuteEngine` on an executable without context: only the context may change, and it
is then created from the engine the executable holds. -/
theorem ExecuteEngine_of_no_context (env : Env) (exe : Executable) (batch_size : Int)
    (buffers : List Nat) (stream : Nat) (block_until_done : Bool)
    (h : exe.execution_context = none) :
    (ExecuteEngine env exe batch_size buffers stream block_until_done).1 =
      { exe with execution_context := exe.engine.map (fun e => { engine := e }) } := by
  cases he : exe.engine <;> cases block_until_done <;>
    cases hs : env.streamSynchronizeOk stream <;>
    simp [ExecuteEngine, h, he, hs] <;> cases exe <;> simp_all

/-- The call `ExecuteEngine` never touches name, builder, network, engine or calibrator, and logs
only the enqueue and the stream synchronisation. -/
theorem ExecuteEngine_frame (env : Env) (exe : Executable) (batch_size : Int)
    (buffers : List Nat) (stream : Nat) (block_until_done : Bool) :
    (ExecuteEngine env exe batch_size buffers stream block_until_done).1.name = exe.name ∧
    (ExecuteEngine env exe batch_size buffers stream block_until_done).1.engine = exe.engine ∧
    (ExecuteEngine env exe batch_size buffers stream block_until_done).1.calibrator =
      exe.calibrator ∧
    (∀ e ∈ (ExecuteEngine env exe batch_size buffers stream block_until_done).2.1,
      isCreateEngine e = false ∧ isRebuild e = false ∧ isCalibrationEvent e = false ∧
      ∀ n, isSpawnOf n e = false) := by
  cases hc : exe.execution_context <;> cases he : exe.engine <;> cases block_until_done <;>
    cases hs : env.streamSynchronizeOk stream <;>
    simp [ExecuteEngine, hc, he, hs, isCreateEngine, isRebuild, isCalibrationEvent, isSpawnOf]

/-- The coordinator is skipped when int8 is not requested or a local calibrator exists. -/
theorem coordinate_skip (env : Env) (registry : Registry) (exe : Executable)
    (run_options : ExecutableRunOptions) (batch_size : Int)
    (binding_params : List (Option Parameter))
    (h : run_options.common.use_int8 = false ∨ exe.calibrator.isSome) :
    coordinate env registry exe run_options batch_size binding_params =
      (exe, registry, [], none) := by
  rcases h with h | h
  · simp [coordinate, h]
  · have : exe.calibrator.isNone = false := by
      cases hc : exe.calibrator <;> simp_all
    simp [coordinate, this]

/-- Loading the calibration table logs only the load, and does nothing when a calibrator
exists, int8 is not requested or no path is given. -/
theorem loadCalibrator_frame (env : Env) (exe : Executable)
    (run_options : ExecutableRunOptions) :
    (∀ e ∈ (loadCalibrator env exe run_options).1,
      isCreateEngine e = false ∧ isRebuild e = false ∧ ∀ n, isSpawnOf n e = false) ∧
    enqueuedContexts (loadCalibrator env exe run_options).1 = [] ∧
    ((exe.calibrator.isSome ∨ run_options.common.use_int8 = false ∨
        run_options.common.int8_calibration.length = 0) →
      loadCalibrator env exe run_options = ([], .ok exe)) := by
  refine ⟨?_, ?_, ?_⟩
  · intro e he
    unfold loadCalibrator at he
    split at he
    · split at he
      · simp at he
        subst he
        simp [isCreateEngine, isRebuild, isSpawnOf]
      · split at he <;>
        · simp at he
          subst he
          simp [isCreateEngine, isRebuild, isSpawnOf]
    · simp at he
  · unfold loadCalibrator
    split
    · split
      · simp [enqueuedContexts]
      · split <;> simp [enqueuedContexts]
    · simp [enqueuedContexts]
  · intro h
    unfold loadCalibrator
    rw [if_neg]
    rcases h with h | h | h
    · cases hc : exe.calibrator <;> simp_all
    · simp [h]
    · simp [h]

/-- Building the first engine logs only the build request. -/
theorem ensureEngine_frame (env : Env) (exe : Executable)
    (run_options : ExecutableRunOptions) :
    (∀ e ∈ (ensureEngine env exe run_options).1,
      isRebuild e = false ∧ isCalibrationEvent e = false ∧ ∀ n, isSpawnOf n e = false) ∧
    enqueuedContexts (ensureEngine env exe run_options).1 = [] := by
  by_cases hc : (exe.execution_context.isNone && exe.engine.isNone) = true
  · cases hb : exe.builder <;> cases hn : exe.network <;>
      try (simp [ensureEngine, CreateExecutableEngine, hc, hb, hn, enqueuedContexts]; done)
    rename_i net
    by_cases hs : env.buildSucceeds (buildCall env run_options 1 exe.calibrator).config
        (buildCall env run_options 1 exe.calibrator).max_batch_size = true <;>
      simp [ensureEngine, CreateExecutableEngine, hc, hb, hn, hs, enqueuedContexts, isRebuild,
        isCalibrationEvent, isSpawnOf]
  · simp [ensureEngine, hc, enqueuedContexts]

/-- The enqueued contexts of a concatenated log. -/
theorem enqueuedContexts_append (l1 l2 : List Event) :
    enqueuedContexts (l1 ++ l2) = enqueuedContexts l1 ++ enqueuedContexts l2 := by
  induction l1 with
  | nil => rfl
  | cons a l ih => cases a <;> simp [enqueuedContexts, ih]

/-- Lines 109-145 keep name, builder and network, log no rebuild, spawn or enqueue, and
end with `engine_` pointing to the engine of the locals. -/
theorem prepare_frame (env : Env) (exe : Executable) (inputs : List Parameter)
    (run_options : ExecutableRunOptions) :
    (prepare env exe inputs run_options).1.name = exe.name ∧
    (prepare env exe inputs run_options).1.builder = exe.builder ∧
    (prepare env exe inputs run_options).1.network = exe.network ∧
    (∀ e ∈ (prepare env exe inputs run_options).2.1,
      isRebuild e = false ∧ ∀ n, isSpawnOf n e = false) ∧
    enqueuedContexts (prepare env exe inputs run_options).2.1 = [] ∧
    (∀ p, (prepare env exe inputs run_options).2.2 = .ok p →
      (prepare env exe inputs run_options).1.engine = some p.engine) := by
  have hlf := loadCalibrator_frame env exe run_options
  rcases h1 : loadCalibrator env exe run_options with ⟨log1, r1⟩
  rw [h1] at hlf
  cases r1 with
  | error f =>
    simp only [prepare, h1]
    refine ⟨trivial, trivial, trivial, fun e he => ⟨(hlf.1 e he).2.1, (hlf.1 e he).2.2⟩,
      hlf.2.1, fun p hp => by simp at hp⟩
  | ok exe1 =>
    have hl := (loadCalibrator_ok env exe exe1 run_options log1 h1).1
    have hn : exe1.name = exe.name := by rw [hl]
    have hb : exe1.builder = exe.builder := by rw [hl]
    have hw : exe1.network = exe.network := by rw [hl]
    have hef := ensureEngine_frame env exe1 run_options
    rcases h2 : ensureEngine env exe1 run_options with ⟨log2, r2⟩
    rw [h2] at hef
    have hlog : ∀ e ∈ log1 ++ log2, isRebuild e = false ∧ ∀ n, isSpawnOf n e = false := by
      intro e he
      rcases List.mem_append.mp he with he | he
      · exact ⟨(hlf.1 e he).2.1, (hlf.1 e he).2.2⟩
      · exact ⟨(hef.1 e he).1, (hef.1 e he).2.2⟩
    have henq2 : enqueuedContexts (log1 ++ log2) = [] := by
      rw [enqueuedContexts_append]
      have a := hlf.2.1
      have b := hef.2
      simp only at a b
      rw [a, b]
      rfl
    cases r2 with
    | error f =>
      simp only [prepare, h1, h2]
      exact ⟨hn, hb, hw, hlog, henq2, fun p hp => by simp at hp⟩
    | ok exe2 =>
      have he := (ensureEngine_ok env exe1 exe2 run_options log2 h2).1
      have hn2 : exe2.name = exe.name := by rw [he]; exact hn
      have hb2 : exe2.builder = exe.builder := by rw [he]; exact hb
      have hw2 : exe2.network = exe.network := by rw [he]; exact hw
      cases h3 : exe2.engine with
      | none =>
        simp only [prepare, h1, h2, h3]
        exact ⟨hn2, hb2, hw2, hlog, henq2, fun p hp => by simp at hp⟩
      | some engine =>
        cases h4 : batchSizeOf (resolveBindings engine inputs run_options.return_params).1 with
        | error f =>
          simp only [prepare, h1, h2, h3, h4]
          exact ⟨hn2, hb2, hw2, hlog, henq2, fun p hp => by simp at hp⟩
        | ok b =>
          simp only [prepare, h1, h2, h3, h4]
          refine ⟨hn2, hb2, hw2, hlog, henq2, ?_⟩
          intro p hp
          simp only [Except.ok.injEq] at hp
          subst hp
          rfl

/-- The capacity check keeps name and calibrator and logs no calibration event, no spawn
and no enqueue. -/
theorem ensureCapacity_frame (env : Env) (exe : Executable) (engine : ICudaEngine)
    (run_options : ExecutableRunOptions) (batch_size : Int) :
    (ensureCapacity env exe engine run_options batch_size).1.name = exe.name ∧
    (ensureCapacity env exe engine run_options batch_size).1.calibrator = exe.calibrator ∧
    (∀ e ∈ (ensureCapacity env exe engine run_options batch_size).2.1,
      isCalibrationEvent e = false ∧ ∀ n, isSpawnOf n e = false) ∧
    enqueuedContexts (ensureCapacity env exe engine run_options batch_size).2.1 = [] := by
  by_cases hgt : batch_size > engine.max_batch_size
  · cases hb : exe.builder <;> cases hn : exe.network <;>
      try (simp [ensureCapacity, hgt, CreateExecutableEngine, hb, hn, isCalibrationEvent,
        isSpawnOf, enqueuedContexts]; done)
    by_cases hs : env.buildSucceeds
        (buildCall env run_options batch_size exe.calibrator).config
        (buildCall env run_options batch_size exe.calibrator).max_batch_size = true <;>
      simp [ensureCapacity, hgt, CreateExecutableEngine, hb, hn, hs, isCalibrationEvent,
        isSpawnOf, enqueuedContexts]
  · simp [ensureCapacity, hgt, enqueuedContexts]

/-- The coordinator when the shared calibrator of the name reports completion and the
shared engine is stored: calibrator and context are taken over, nothing else changes. -/
theorem coordinate_adopt (env : Env) (registry : Registry) (exe : Executable)
    (run_options : ExecutableRunOptions) (batch_size : Int)
    (binding_params : List (Option Parameter)) (c : TRTInt8Calibrator) (shared : ICudaEngine)
    (h8 : run_options.common.use_int8 = true) (hcal : exe.calibrator = none)
    (hres : (registry exe.name).calibrator = some c) (hdone : c.done = true)
    (hshared : (registry exe.name).engine = some shared)
    (hsync : env.streamSynchronizeOk run_options.stream = true) :
    coordinate env registry exe run_options batch_size binding_params =
      ({ exe with
          calibrator := some (CalibratorRef.shared exe.name)
          execution_context := some { engine := shared } },
        registry,
        [Event.lookupOrCreate exe.name, Event.streamSynchronize run_options.stream,
          Event.adoptCalibrator exe.name], none) := by
  simp [coordinate, guardedSection, pollCalibrator, h8, hcal, LookupOrCreate, hres, hdone,
    hshared, hsync]

/-- The call `ExecuteEngine` on an executable that has a context returns the enqueue status when
the call does not block or the synchronisation succeeds. -/
theorem ExecuteEngine_result (env : Env) (exe : Executable) (batch_size : Int)
    (buffers : List Nat) (stream : Nat) (block_until_done : Bool) (c : IExecutionContext)
    (h : exe.execution_context = some c)
    (hsync : block_until_done = true → env.streamSynchronizeOk stream = true) :
    (ExecuteEngine env exe batch_size buffers stream block_until_done).2.2 =
      .ok (env.enqueueV2 c buffers stream) := by
  cases block_until_done
  · simp [ExecuteEngine, h]
  · simp [ExecuteEngine, h, hsync rfl]

/-! ## C9: adopting the shared calibrator -/

/-- C9, counterexample. After a first call of the fresh executable with an int8 request,
the background thread and the completion of the calibrator, the executable holds the
full-precision `engine4`, the shared calibrator of its name reports completion and the
shared engine is `engineInt8` (the state `exeReady`, `resourceBuilt`). After the next
`Run` the calibrator is the shared one and the context runs on `engineInt8`, but the
engine of the executable is still `engine4`, not the shared engine. -/
theorem C9_counterexample :
    (runSteps envAll worldFresh
      [Step.enter 0 [paramX] optsInt8 false, Step.guard 0, Step.leave 0,
        Step.threadRun "conv_block", Step.calibratorDone "conv_block"]).1.registry
        "conv_block" = resourceBuilt ∧
    (runSteps envAll worldFresh
      [Step.enter 0 [paramX] optsInt8 false, Step.guard 0, Step.leave 0,
        Step.threadRun "conv_block", Step.calibratorDone "conv_block"]).1.executables 0 =
        exeReady ∧
    (registryBuilt exeReady.name).engine = some engineInt8 ∧
    (Run envAll registryBuilt exeReady [paramX] optsInt8 false).result = .ok true ∧
    (Run envAll registryBuilt exeReady [paramX] optsInt8 false).exe.calibrator =
      some (CalibratorRef.shared "conv_block") ∧
    (Run envAll registryBuilt exeReady [paramX] optsInt8 false).exe.execution_context =
      some { engine := engineInt8 } ∧
    (Run envAll registryBuilt exeReady [paramX] optsInt8 false).exe.engine = some engine4 ∧
    (Run envAll registryBuilt exeReady [paramX] optsInt8 false).exe.engine ≠
      (registryBuilt exeReady.name).engine := by
  refine ⟨rfl, rfl, rfl, rfl, rfl, rfl, rfl, ?_⟩
  have h1 : (Run envAll registryBuilt exeReady [paramX] optsInt8 false).exe.engine =
      some engine4 := rfl
  have h2 : (registryBuilt exeReady.name).engine = some engineInt8 := rfl
  rw [h1, h2]
  decide

/-- C9, amended. Take a `Run` with int8 requested that passes the capacity check
(`exe4` is the executable after line 154) without a local calibrator, and finds the
shared calibrator of its name reporting completion, the shared engine stored and the
stream synchronisation succeeding. After the `Run` the calibrator of the executable is
the shared calibrator, its execution context is one created from the shared engine, the
enqueue ran on that context and the call returned the enqueue status; the engine member
of the executable is the one it held after the capacity check, it is not replaced by the
shared engine. -/
theorem C9_adopts_calibrator_and_context (env : Env) (registry : Registry) (exe : Executable)
    (inputs : List Parameter) (run_options : ExecutableRunOptions) (block_until_done : Bool)
    (exe3 exe4 : Executable) (log2 log3 : List Event) (p : Prepared)
    (c : TRTInt8Calibrator) (shared : ICudaEngine)
    (hprep : prepare env exe inputs run_options = (exe3, log2, .ok p))
    (hcap : ensureCapacity env exe3 p.engine run_options p.batch_size = (exe4, log3, none))
    (h8 : run_options.common.use_int8 = true) (hcal : exe3.calibrator = none)
    (hres : (registry exe.name).calibrator = some c) (hdone : c.done = true)
    (hshared : (registry exe.name).engine = some shared)
    (hsync : env.streamSynchronizeOk run_options.stream = true) :
    let out := Run env registry exe inputs run_options block_until_done
    out.exe.calibrator = some (CalibratorRef.shared exe.name) ∧
    out.exe.execution_context = some { engine := shared } ∧
    out.exe.engine = exe4.engine ∧
    Event.adoptCalibrator exe.name ∈ out.log ∧
    enqueuedContexts out.log = [{ engine := shared }] ∧
    out.result = .ok (env.enqueueV2 { engine := shared } p.buffers run_options.stream) := by
  intro out
  have hfr := prepare_frame env exe inputs run_options
  rw [hprep] at hfr
  simp only at hfr
  have hcf := ensureCapacity_frame env exe3 p.engine run_options p.batch_size
  rw [hcap] at hcf
  simp only at hcf
  have hname : exe4.name = exe.name := by rw [hcf.1, hfr.1]
  have hcal4 : exe4.calibrator = none := by rw [hcf.2.1, hcal]
  have hco := coordinate_adopt env registry exe4 run_options p.batch_size p.binding_params c
    shared h8 hcal4 (by rw [hname]; exact hres) hdone (by rw [hname]; exact hshared) hsync
  have hctx : ({ exe4 with
      calibrator := some (CalibratorRef.shared exe4.name)
      execution_context := some { engine := shared } } : Executable).execution_context =
      some { engine := shared } := rfl
  have hx1 := ExecuteEngine_of_context env _ p.batch_size p.buffers run_options.stream
    block_until_done _ hctx
  have hx2 := ExecuteEngine_result env _ p.batch_size p.buffers run_options.stream
    block_until_done _ hctx (fun _ => hsync)
  rcases hex : ExecuteEngine env
    { exe4 with
      calibrator := some (CalibratorRef.shared exe4.name)
      execution_context := some { engine := shared } }
    p.batch_size p.buffers run_options.stream block_until_done with ⟨exe6, log5, result⟩
  rw [hex] at hx1 hx2
  simp only at hx1 hx2
  have hout : out = ⟨exe6, registry,
      log2 ++ log3 ++ ([Event.lookupOrCreate exe4.name,
        Event.streamSynchronize run_options.stream, Event.adoptCalibrator exe4.name] ++ log5),
      result⟩ := by
    simp only [out, Run, hprep, hcap, calibrateAndExecute, hco, hex]
  rw [hout]
  simp only
  refine ⟨?_, ?_, ?_, ?_, ?_, hx2⟩
  · rw [hx1.1, hname]
  · rw [hx1.1]
  · rw [hx1.1]
  · rw [hname]
    simp
  · have h2 : enqueuedContexts log2 = [] := hfr.2.2.2.2.1
    have h3 : enqueuedContexts log3 = [] := hcf.2.2.2
    have h5 : enqueuedContexts log5 = [{ engine := shared }] := hx1.2
    rw [enqueuedContexts_append, enqueuedContexts_append, enqueuedContexts_append, h2, h3, h5]
    rfl

/-- Witness of C9 (amended): the executable holding `engine4` adopts from `registryBuilt`. -/
theorem C9_adopts_calibrator_and_context_witness :
    (Run envAll registryBuilt exeReady [paramX] optsInt8 false).exe.calibrator =
      some (CalibratorRef.shared "conv_block") ∧
    (Run envAll registryBuilt exeReady [paramX] optsInt8 false).exe.execution_context =
      some { engine := engineInt8 } ∧
    (Run envAll registryBuilt exeReady [paramX] optsInt8 false).exe.engine = some engine4 :=
  have h := C9_adopts_calibrator_and_context envAll registryBuilt exeReady [paramX] optsInt8
    false exeReady exeReady [] [] ⟨engine4, [some paramX, none], [100, 0], 1⟩
    { done := true, batch_size := some 1, batches := [[some paramX, none]] } engineInt8
    rfl rfl rfl rfl rfl rfl rfl rfl
  ⟨h.1, h.2.1, h.2.2.1⟩

/-! ## After a calibrator is present -/

/-- The log of lines 109-145 is the log of the table loading followed by the log of the
first engine build. -/
theorem prepare_log (env : Env) (exe : Executable) (inputs : List Parameter)
    (run_options : ExecutableRunOptions) :
    (prepare env exe inputs run_options).2.1 =
      (loadCalibrator env exe run_options).1 ++
        (match (loadCalibrator env exe run_options).2 with
          | .ok exe1 => (ensureEngine env exe1 run_options).1
          | .error _ => []) := by
  rcases h1 : loadCalibrator env exe run_options with ⟨log1, r1⟩
  cases r1 with
  | error f => simp only [prepare, h1, List.append_nil]
  | ok exe1 =>
    rcases h2 : ensureEngine env exe1 run_options with ⟨log2, r2⟩
    cases r2 with
    | error f => simp only [prepare, h1, h2]
    | ok exe2 =>
      cases h3 : exe2.engine with
      | none => simp only [prepare, h1, h2, h3]
      | some engine =>
        cases h4 : batchSizeOf (resolveBindings engine inputs run_options.return_params).1 with
        | error f => simp only [prepare, h1, h2, h3, h4]
        | ok b => simp only [prepare, h1, h2, h3, h4]

/-- With a calibrator present, lines 109-145 keep calibrator and context and log no
calibration event. -/
theorem prepare_of_calibrator (env : Env) (exe : Executable) (inputs : List Parameter)
    (run_options : ExecutableRunOptions) (h : exe.calibrator.isSome) :
    (prepare env exe inputs run_options).1.calibrator = exe.calibrator ∧
    (prepare env exe inputs run_options).1.execution_context = exe.execution_context ∧
    (∀ e ∈ (prepare env exe inputs run_options).2.1, isCalibrationEvent e = false) := by
  have h1 := (loadCalibrator_frame env exe run_options).2.2 (Or.inl h)
  have hlog := prepare_log env exe inputs run_options
  rw [h1] at hlog
  simp only [List.nil_append] at hlog
  refine ⟨?_, ?_, ?_⟩
  · rcases h2 : ensureEngine env exe run_options with ⟨log2, r2⟩
    cases r2 with
    | error f => simp only [prepare, h1, h2]
    | ok exe2 =>
      have he := (ensureEngine_ok env exe exe2 run_options log2 h2).1
      cases h3 : exe2.engine with
      | none => simp only [prepare, h1, h2, h3]; rw [he]
      | some engine =>
        cases h4 : batchSizeOf (resolveBindings engine inputs run_options.return_params).1 with
        | error f => simp only [prepare, h1, h2, h3, h4]; rw [he]
        | ok b => simp only [prepare, h1, h2, h3, h4]; rw [he]
  · rcases h2 : ensureEngine env exe run_options with ⟨log2, r2⟩
    cases r2 with
    | error f => simp only [prepare, h1, h2]
    | ok exe2 =>
      have he := (ensureEngine_ok env exe exe2 run_options log2 h2).1
      cases h3 : exe2.engine with
      | none => simp only [prepare, h1, h2, h3]; rw [he]
      | some engine =>
        cases h4 : batchSizeOf (resolveBindings engine inputs run_options.return_params).1 with
        | error f => simp only [prepare, h1, h2, h3, h4]; rw [he]
        | ok b => simp only [prepare, h1, h2, h3, h4]; rw [he]
  · intro e he
    rw [hlog] at he
    exact ((ensureEngine_frame env exe run_options).1 e he).2.1

/-- The two ways the capacity check ends without a fatal condition: nothing changes and
nothing is logged, or the rebuild diagnostic is logged and engine and context are
replaced by a rebuilt engine and a context on it. -/
theorem ensureCapacity_cases (env : Env) (exe exe4 : Executable) (engine : ICudaEngine)
    (run_options : ExecutableRunOptions) (batch_size : Int) (log3 : List Event)
    (h : ensureCapacity env exe engine run_options batch_size = (exe4, log3, none)) :
    (exe4 = exe ∧ log3 = []) ∨
    ((∃ e ∈ log3, isRebuild e = true) ∧
      ∃ rebuilt, exe4 = { exe with engine := some rebuilt,
                                   execution_context := some { engine := rebuilt } }) := by
  by_cases hgt : batch_size > engine.max_batch_size
  · right
    cases hb : exe.builder <;> cases hn : exe.network <;>
      try (simp [ensureCapacity, hgt, CreateExecutableEngine, hb, hn] at h; done)
    rename_i net
    by_cases hs : env.buildSucceeds
        (buildCall env run_options batch_size exe.calibrator).config
        (buildCall env run_options batch_size exe.calibrator).max_batch_size = true
    · simp only [ensureCapacity, hgt, CreateExecutableEngine, hb, hn, hs, if_true,
        Prod.mk.injEq, and_true] at h
      obtain ⟨rfl, rfl⟩ := h
      exact ⟨⟨_, List.mem_cons_self _ _, rfl⟩, _, rfl⟩
    · simp [ensureCapacity, hgt, CreateExecutableEngine, hb, hn, hs] at h
  · left
    simp only [ensureCapacity, hgt, if_false, Prod.mk.injEq, and_true] at h
    exact ⟨h.1.symm, h.2.symm⟩

/-- A `Run` on an executable that has a calibrator: the calibrator stays, the registry is
not touched, no calibration event is logged; without rebuild an existing context stays
and every enqueue runs on it; with rebuild every enqueue runs on a context of the engine
the executable holds afterwards. -/
theorem Run_of_calibrator (env : Env) (registry : Registry) (exe : Executable)
    (inputs : List Parameter) (run_options : ExecutableRunOptions) (block_until_done : Bool)
    (h : exe.calibrator.isSome) :
    (Run env registry exe inputs run_options block_until_done).exe.calibrator =
      exe.calibrator ∧
    (Run env registry exe inputs run_options block_until_done).registry = registry ∧
    (∀ e ∈ (Run env registry exe inputs run_options block_until_done).log,
      isCalibrationEvent e = false) ∧
    ((∀ e ∈ (Run env registry exe inputs run_options block_until_done).log,
        isRebuild e = false) →
      ∀ c, exe.execution_context = some c →
        (Run env registry exe inputs run_options block_until_done).exe.execution_context =
          some c ∧
        ∀ x ∈ enqueuedContexts (Run env registry exe inputs run_options block_until_done).log,
          x = c) ∧
    ((∃ e ∈ (Run env registry exe inputs run_options block_until_done).log,
        isRebuild e = true) →
      ∀ x ∈ enqueuedContexts (Run env registry exe inputs run_options block_until_done).log,
        some x.engine =
          (Run env registry exe inputs run_options block_until_done).exe.engine) := by
  have hp := prepare_of_calibrator env exe inputs run_options h
  have hpf := prepare_frame env exe inputs run_options
  rcases hprep : prepare env exe inputs run_options with ⟨exe3, log2, r⟩
  rw [hprep] at hp hpf
  simp only at hp hpf
  obtain ⟨hcal3, hctx3, hlog2⟩ := hp
  have henq2 : enqueuedContexts log2 = [] := hpf.2.2.2.2.1
  have hreb2 : ∀ e ∈ log2, isRebuild e = false := fun e he => (hpf.2.2.2.1 e he).1
  cases r with
  | error f =>
    simp only [Run, hprep]
    refine ⟨hcal3, trivial, hlog2, fun _ c hc => ⟨by rw [hctx3]; exact hc, ?_⟩, ?_⟩
    · rw [henq2]
      intro x hx
      cases hx
    · rw [henq2]
      intro _ x hx
      cases hx
  | ok p =>
    have hcf := ensureCapacity_frame env exe3 p.engine run_options p.batch_size
    rcases hcap : ensureCapacity env exe3 p.engine run_options p.batch_size with
      ⟨exe4, log3, f⟩
    rw [hcap] at hcf
    simp only at hcf
    obtain ⟨-, hcal4, hlog3, henq3⟩ := hcf
    rw [hcal3] at hcal4
    cases f with
    | some f =>
      simp only [Run, hprep, hcap]
      refine ⟨hcal4, trivial, ?_, ?_, ?_⟩
      · intro e he
        rcases List.mem_append.mp he with he | he
        · exact hlog2 e he
        · exact (hlog3 e he).1
      · intro hno c hc
        have hgt : ¬ p.batch_size > p.engine.max_batch_size := by
          intro hgt
          have hw : Event.rebuildWarning p.engine.max_batch_size p.batch_size ∈ log3 := by
            have : log3 = (ensureCapacity env exe3 p.engine run_options p.batch_size).2.1 := by
              rw [hcap]
            rw [this]
            cases hb : exe3.builder <;> cases hn : exe3.network <;>
              try (simp [ensureCapacity, hgt, CreateExecutableEngine, hb, hn]; done)
            by_cases hs : env.buildSucceeds
                (buildCall env run_options p.batch_size exe3.calibrator).config
                (buildCall env run_options p.batch_size exe3.calibrator).max_batch_size = true <;>
              simp [ensureCapacity, hgt, CreateExecutableEngine, hb, hn, hs]
          have := hno _ (List.mem_append.mpr (Or.inr hw))
          simp [isRebuild] at this
        simp [ensureCapacity, hgt] at hcap
      · rw [enqueuedContexts_append, henq2, henq3]
        intro _ x hx
        cases hx
    | none =>
      have hsome4 : exe4.calibrator.isSome := by rw [hcal4]; exact h
      have hco := coordinate_skip env registry exe4 run_options p.batch_size p.binding_params
        (Or.inr hsome4)
      have hxf := ExecuteEngine_frame env exe4 p.batch_size p.buffers run_options.stream
        block_until_done
      rcases hex : ExecuteEngine env exe4 p.batch_size p.buffers run_options.stream
        block_until_done with ⟨exe6, log5, result⟩
      rw [hex] at hxf
      simp only at hxf
      have hout : Run env registry exe inputs run_options block_until_done =
          ⟨exe6, registry, log2 ++ log3 ++ ([] ++ log5), result⟩ := by
        simp only [Run, hprep, hcap, calibrateAndExecute, hco, hex]
      rw [hout]
      simp only [List.nil_append]
      have hlogall : ∀ e ∈ log2 ++ log3 ++ log5, isCalibrationEvent e = false := by
        intro e he
        rcases List.mem_append.mp he with he | he
        · rcases List.mem_append.mp he with he | he
          · exact hlog2 e he
          · exact (hlog3 e he).1
        · exact (hxf.2.2.2 e he).2.2.1
      have henq : enqueuedContexts (log2 ++ log3 ++ log5) = enqueuedContexts log5 := by
        rw [enqueuedContexts_append, enqueuedContexts_append, henq2, henq3]
        rfl
      refine ⟨by rw [hxf.2.2.1, hcal4], trivial, hlogall, ?_, ?_⟩
      · intro hno c hc
        rcases ensureCapacity_cases env exe3 exe4 p.engine run_options p.batch_size log3 hcap
          with ⟨h4, -⟩ | ⟨⟨e, he, hr⟩, -⟩
        · have hc4 : exe4.execution_context = some c := by
            rw [h4, hctx3]
            exact hc
          have hx := ExecuteEngine_of_context env exe4 p.batch_size p.buffers
            run_options.stream block_until_done c hc4
          rw [hex] at hx
          simp only at hx
          refine ⟨by rw [hx.1]; exact hc4, ?_⟩
          rw [henq, hx.2]
          intro x hx
          simpa using hx
        · have := hno e (List.mem_append.mpr (Or.inl (List.mem_append.mpr (Or.inr he))))
          rw [hr] at this
          cases this
      · rintro ⟨e, he, hr⟩
        rcases ensureCapacity_cases env exe3 exe4 p.engine run_options p.batch_size log3 hcap
          with ⟨-, h3⟩ | ⟨-, rebuilt, h4⟩
        · exfalso
          subst h3
          simp only [List.append_nil] at he
          rcases List.mem_append.mp he with he | he
          · rw [hreb2 e he] at hr
            cases hr
          · rw [(hxf.2.2.2 e he).2.1] at hr
            cases hr
        · have hc4 : exe4.execution_context = some { engine := rebuilt } := by rw [h4]
          have hx := ExecuteEngine_of_context env exe4 p.batch_size p.buffers
            run_options.stream block_until_done _ hc4
          rw [hex] at hx
          simp only at hx
          rw [henq, hx.2, hx.1, h4]
          intro x hx
          simp only [List.mem_singleton] at hx
          rw [hx]

/-- Loading the calibration table logs no adoption. -/
theorem loadCalibrator_no_adopt (env : Env) (exe : Executable)
    (run_options : ExecutableRunOptions) :
    ∀ e ∈ (loadCalibrator env exe run_options).1, ∀ n, e ≠ Event.adoptCalibrator n := by
  intro e he n
  unfold loadCalibrator at he
  split at he
  · split at he
    · simp at he
      subst he
      simp
    · split at he <;>
      · simp at he
        subst he
        simp
  · simp at he

/-- Lines 109-145 log no adoption. -/
theorem prepare_no_adopt (env : Env) (exe : Executable) (inputs : List Parameter)
    (run_options : ExecutableRunOptions) :
    ∀ e ∈ (prepare env exe inputs run_options).2.1, ∀ n, e ≠ Event.adoptCalibrator n := by
  intro e he n hen
  rw [prepare_log] at he
  rcases List.mem_append.mp he with he | he
  · exact loadCalibrator_no_adopt env exe run_options e he n hen
  · rcases h1 : (loadCalibrator env exe run_options).2 with f | exe1
    · rw [h1] at he
      simp at he
    · rw [h1] at he
      simp only at he
      have := ((ensureEngine_frame env exe1 run_options).1 e he).2.1
      rw [hen] at this
      simp [isCalibrationEvent] at this

/-- When the coordinator logs an adoption, the shared engine exists, calibrator and
context of the executable are the shared calibrator and a context on the shared engine,
and the coordinator ends without fatal condition. -/
theorem coordinate_adopted (env : Env) (registry : Registry) (exe : Executable)
    (run_options : ExecutableRunOptions) (batch_size : Int)
    (binding_params : List (Option Parameter))
    (h : ∃ n, Event.adoptCalibrator n ∈
      (coordinate env registry exe run_options batch_size binding_params).2.2.1) :
    ∃ shared, (registry exe.name).engine = some shared ∧
      (coordinate env registry exe run_options batch_size binding_params).1 =
        { exe with
          calibrator := some (CalibratorRef.shared exe.name)
          execution_context := some { engine := shared } } ∧
      (coordinate env registry exe run_options batch_size binding_params).2.2.2 = none := by
  obtain ⟨n, hn⟩ := h
  by_cases hskip : run_options.common.use_int8 = false ∨ exe.calibrator.isSome
  · rw [coordinate_skip env registry exe run_options batch_size binding_params hskip] at hn
    simp at hn
  · have h8 : run_options.common.use_int8 = true := by
      cases h8 : run_options.common.use_int8 <;> simp_all
    have hc : exe.calibrator = none := by
      cases hc : exe.calibrator <;> simp_all
    cases hr : (registry exe.name).calibrator with
    | none =>
      simp [coordinate, guardedSection, pollCalibrator, Registry.store, h8, hc, LookupOrCreate, hr] at hn
    | some c =>
      cases hd : c.done <;> cases hs : env.streamSynchronizeOk run_options.stream <;>
        cases hg : (registry exe.name).engine <;>
        simp [coordinate, guardedSection, pollCalibrator, Registry.store, h8, hc, LookupOrCreate, hr, hd, hs, hg] at hn ⊢

/-- A `Run` that logs an adoption leaves the executable with the shared calibrator of
its name and a context on the shared engine. -/
theorem Run_adopted (env : Env) (registry : Registry) (exe : Executable)
    (inputs : List Parameter) (run_options : ExecutableRunOptions) (block_until_done : Bool)
    (h : ∃ n, Event.adoptCalibrator n ∈
      (Run env registry exe inputs run_options block_until_done).log) :
    ∃ shared, (registry exe.name).engine = some shared ∧
      (Run env registry exe inputs run_options block_until_done).exe.calibrator =
        some (CalibratorRef.shared exe.name) ∧
      (Run env registry exe inputs run_options block_until_done).exe.execution_context =
        some { engine := shared } := by
  obtain ⟨n, hn⟩ := h
  have hpn := prepare_no_adopt env exe inputs run_options
  have hpf := prepare_frame env exe inputs run_options
  rcases hprep : prepare env exe inputs run_options with ⟨exe3, log2, r⟩
  rw [hprep] at hpn hpf
  simp only at hpn hpf
  cases r with
  | error f =>
    simp only [Run, hprep] at hn
    exact absurd rfl (hpn _ hn n)
  | ok p =>
    have hcf := ensureCapacity_frame env exe3 p.engine run_options p.batch_size
    rcases hcap : ensureCapacity env exe3 p.engine run_options p.batch_size with
      ⟨exe4, log3, f⟩
    rw [hcap] at hcf
    simp only at hcf
    have hno3 : Event.adoptCalibrator n ∉ log3 := by
      intro hm
      have := (hcf.2.2.1 _ hm).1
      simp [isCalibrationEvent] at this
    have hname : exe4.name = exe.name := by rw [hcf.1, hpf.1]
    cases f with
    | some f =>
      simp only [Run, hprep, hcap] at hn
      rcases List.mem_append.mp hn with hn | hn
      · exact absurd rfl (hpn _ hn n)
      · exact absurd hn hno3
    | none =>
      rcases hco : coordinate env registry exe4 run_options p.batch_size p.binding_params with
        ⟨exe5, registry1, log4, f4⟩
      have hxf := ExecuteEngine_frame env exe5 p.batch_size p.buffers run_options.stream
        block_until_done
      have hin4 : Event.adoptCalibrator n ∈ log4 := by
        cases f4 with
        | some f =>
          simp only [Run, hprep, hcap, calibrateAndExecute, hco] at hn
          rcases List.mem_append.mp hn with hn | hn
          · rcases List.mem_append.mp hn with hn | hn
            · exact absurd rfl (hpn _ hn n)
            · exact absurd hn hno3
          · exact hn
        | none =>
          simp only [Run, hprep, hcap, calibrateAndExecute, hco] at hn
          rcases List.mem_append.mp hn with hn | hn
          · rcases List.mem_append.mp hn with hn | hn
            · exact absurd rfl (hpn _ hn n)
            · exact absurd hn hno3
          · rcases List.mem_append.mp hn with hn | hn
            · exact hn
            · have := (hxf.2.2.2 _ hn).2.2.1
              simp [isCalibrationEvent] at this
      have had := coordinate_adopted env registry exe4 run_options p.batch_size
        p.binding_params ⟨n, by rw [hco]; exact hin4⟩
      rw [hco] at had
      simp only at had
      obtain ⟨shared, hsh, h5, hf4⟩ := had
      subst hf4
      have hc5 : exe5.execution_context = some { engine := shared } := by rw [h5]
      have hx := ExecuteEngine_of_context env exe5 p.batch_size p.buffers run_options.stream
        block_until_done _ hc5
      refine ⟨shared, by rw [← hname]; exact hsh, ?_, ?_⟩
      · simp only [Run, hprep, hcap, calibrateAndExecute, hco]
        rw [hx.1, h5, hname]
      · simp only [Run, hprep, hcap, calibrateAndExecute, hco]
        rw [hx.1, hc5]

/-- Successive calls on an executable that has a calibrator: it keeps that calibrator, no
call logs a calibration event, and a call that rebuilds enqueues on a context of the
engine it leaves in the executable. -/
theorem runCalls_of_calibrator (calls : List Call) (exe : Executable) (cal : CalibratorRef)
    (h : exe.calibrator = some cal) :
    ∀ o ∈ runCalls exe calls,
      (∀ e ∈ o.log, isCalibrationEvent e = false) ∧ o.exe.calibrator = some cal ∧
      ((∃ e ∈ o.log, isRebuild e = true) →
        ∀ x ∈ enqueuedContexts o.log, some x.engine = o.exe.engine) := by
  induction calls generalizing exe with
  | nil => intro o ho; simp [runCalls] at ho
  | cons c rest ih =>
    intro o ho
    have hr := Run_of_calibrator c.env c.registry exe c.inputs c.run_options c.block_until_done
      (by rw [h]; rfl)
    have hcal : (Run c.env c.registry exe c.inputs c.run_options
        c.block_until_done).exe.calibrator = some cal := by rw [hr.1, h]
    simp only [runCalls] at ho
    cases hres : (Run c.env c.registry exe c.inputs c.run_options c.block_until_done).result with
    | error f =>
      rw [hres] at ho
      simp only [List.mem_singleton] at ho
      subst ho
      exact ⟨hr.2.2.1, hcal, hr.2.2.2.2⟩
    | ok status =>
      rw [hres] at ho
      simp only [List.mem_cons] at ho
      rcases ho with ho | ho
      · subst ho
        exact ⟨hr.2.2.1, hcal, hr.2.2.2.2⟩
      · exact ih _ hcal o ho

/-- Successive calls without rebuild on an executable that has a calibrator and a
context: the context stays and every enqueue runs on it. -/
theorem runCalls_context (calls : List Call) (exe : Executable) (cal : CalibratorRef)
    (c : IExecutionContext) (h : exe.calibrator = some cal)
    (hc : exe.execution_context = some c)
    (hno : ∀ o ∈ runCalls exe calls, ∀ e ∈ o.log, isRebuild e = false) :
    ∀ o ∈ runCalls exe calls, ∀ x ∈ enqueuedContexts o.log, x = c := by
  induction calls generalizing exe with
  | nil => intro o ho; simp [runCalls] at ho
  | cons k rest ih =>
    intro o ho
    have hr := Run_of_calibrator k.env k.registry exe k.inputs k.run_options k.block_until_done
      (by rw [h]; rfl)
    have hcal : (Run k.env k.registry exe k.inputs k.run_options
        k.block_until_done).exe.calibrator = some cal := by rw [hr.1, h]
    simp only [runCalls] at ho hno
    cases hres : (Run k.env k.registry exe k.inputs k.run_options k.block_until_done).result with
    | error f =>
      rw [hres] at ho hno
      simp only [List.mem_singleton] at ho
      subst ho
      exact (hr.2.2.2.1 (hno _ (List.mem_singleton.mpr rfl)) c hc).2
    | ok status =>
      rw [hres] at ho hno
      have hfirst := hr.2.2.2.1 (hno _ (List.mem_cons_self _ _)) c hc
      simp only [List.mem_cons] at ho
      rcases ho with ho | ho
      · subst ho
        exact hfirst.2
      · exact ih _ hcal hfirst.1 (fun o2 ho2 => hno o2 (List.mem_cons_of_mem _ ho2)) o ho

/-! ## C10: after the adoption -/

/-- C10, counterexample. The executable adopts the shared calibrator (its context then
runs on `engineInt8`); a later call with batch size 8, above the cap 4 of the engine the
executable holds, and without int8 request rebuilds the engine: the call is enqueued on
a context of `engine8`, which is not the calibrated engine and has neither the INT8 flag
nor a calibrator. -/
theorem C10_counterexample :
    (∃ n, Event.adoptCalibrator n ∈
      (Run envAll registryBuilt exeReady [paramX] optsInt8 false).log) ∧
    (Run envAll registryBuilt exeReady [paramX] optsInt8 false).exe = exeAdopted ∧
    (runCalls exeAdopted [callBatch8]).map (fun o => enqueuedContexts o.log) =
      [[{ engine := engine8 }]] ∧
    engine8 ≠ engineInt8 ∧ engine8.config.int8_calibrator = none ∧
    engine8.config.flags.testBit BuilderFlag.kINT8.toInt = false := by
  refine ⟨⟨"conv_block", ?_⟩, rfl, rfl, by decide, rfl, by decide⟩
  have : (Run envAll registryBuilt exeReady [paramX] optsInt8 false).log =
      [Event.lookupOrCreate "conv_block", Event.streamSynchronize 7,
        Event.adoptCalibrator "conv_block",
        Event.enqueue { engine := engineInt8 } [100, 0] 7] := rfl
  rw [this]
  simp

/-- C10, amended. Once a `Run` has adopted the shared calibrator, in every sequence of
later calls on that executable, for any inputs, options, environment and registry, no
call looks up the resource, spawns a thread, feeds a calibration batch or loads a
calibration table, and the calibrator of the executable stays the shared calibrator. As
long as no later call rebuilds the engine, every call is enqueued on the context created
from the shared calibrated engine; a later call that rebuilds (its batch size exceeds the
cap of the engine the executable holds) is enqueued on a context of the rebuilt engine. -/
theorem C10_no_coordinator_after_adoption (env : Env) (registry : Registry) (exe : Executable)
    (inputs : List Parameter) (run_options : ExecutableRunOptions) (block_until_done : Bool)
    (calls : List Call)
    (hadopt : ∃ n, Event.adoptCalibrator n ∈
      (Run env registry exe inputs run_options block_until_done).log) :
    ∃ shared, (registry exe.name).engine = some shared ∧
      (∀ o ∈ runCalls (Run env registry exe inputs run_options block_until_done).exe calls,
        (∀ e ∈ o.log, isCalibrationEvent e = false) ∧
        o.exe.calibrator = some (CalibratorRef.shared exe.name) ∧
        ((∃ e ∈ o.log, isRebuild e = true) →
          ∀ x ∈ enqueuedContexts o.log, some x.engine = o.exe.engine)) ∧
      ((∀ o ∈ runCalls (Run env registry exe inputs run_options block_until_done).exe calls,
          ∀ e ∈ o.log, isRebuild e = false) →
        ∀ o ∈ runCalls (Run env registry exe inputs run_options block_until_done).exe calls,
          ∀ x ∈ enqueuedContexts o.log, x = { engine := shared }) := by
  obtain ⟨shared, hsh, hcal, hctx⟩ :=
    Run_adopted env registry exe inputs run_options block_until_done hadopt
  exact ⟨shared, hsh, runCalls_of_calibrator calls _ _ hcal,
    runCalls_context calls _ _ _ hcal hctx⟩

/-- Witness of C10 (amended): after the adoption from `registryBuilt`, a call asking for
int8 with a calibration directory and a call with batch 8. -/
theorem C10_no_coordinator_after_adoption_witness :
    ∃ shared, (registryBuilt exeReady.name).engine = some shared ∧
      (∀ o ∈ runCalls (Run envAll registryBuilt exeReady [paramX] optsInt8 false).exe
          [callBatch1, callBatch8],
        (∀ e ∈ o.log, isCalibrationEvent e = false) ∧
        o.exe.calibrator = some (CalibratorRef.shared exeReady.name) ∧
        ((∃ e ∈ o.log, isRebuild e = true) →
          ∀ x ∈ enqueuedContexts o.log, some x.engine = o.exe.engine)) ∧
      ((∀ o ∈ runCalls (Run envAll registryBuilt exeReady [paramX] optsInt8 false).exe
          [callBatch1, callBatch8], ∀ e ∈ o.log, isRebuild e = false) →
        ∀ o ∈ runCalls (Run envAll registryBuilt exeReady [paramX] optsInt8 false).exe
          [callBatch1, callBatch8], ∀ x ∈ enqueuedContexts o.log, x = { engine := shared }) :=
  C10_no_coordinator_after_adoption envAll registryBuilt exeReady [paramX] optsInt8 false
    [callBatch1, callBatch8]
    ⟨"conv_block", by
      have : (Run envAll registryBuilt exeReady [paramX] optsInt8 false).log =
          [Event.lookupOrCreate "conv_block", Event.streamSynchronize 7,
            Event.adoptCalibrator "conv_block",
            Event.enqueue { engine := engineInt8 } [100, 0] 7] := rfl
      rw [this]
      simp⟩

/-! ## Interleaved runs and the background thread -/

/-- Spawns add up over concatenated logs. -/
theorem threadsSpawned_append (name : String) (l1 l2 : List Event) :
    threadsSpawned name (l1 ++ l2) = threadsSpawned name l1 + threadsSpawned name l2 := by
  simp [threadsSpawned, List.filter_append]

/-- A log without spawn of `name` counts no thread. -/
theorem threadsSpawned_eq_zero (name : String) (l : List Event)
    (h : ∀ e ∈ l, isSpawnOf name e = false) : threadsSpawned name l = 0 := by
  simp only [threadsSpawned, List.length_eq_zero, List.filter_eq_nil_iff]
  intro e he
  simp [h e he]

/-- The guarded section spawns the thread of `name` exactly when the executable has that
name and the resource has no calibrator; afterwards the resource of the executable name
has a calibrator, and no other resource loses one. -/
theorem guardedSection_spawn (env : Env) (registry : Registry) (exe : Executable)
    (run_options : ExecutableRunOptions) (batch_size : Int) (name : String) :
    threadsSpawned name (guardedSection env registry exe run_options batch_size).2 =
      (if (registry exe.name).calibrator.isNone ∧ exe.name = name then 1 else 0) ∧
    ((guardedSection env registry exe run_options batch_size).1 exe.name).calibrator.isSome ∧
    ((registry name).calibrator.isSome →
      ((guardedSection env registry exe run_options batch_size).1 name).calibrator.isSome) := by
  cases hr : (registry exe.name).calibrator with
  | none =>
    by_cases hn : exe.name = name
    · subst hn
      simp [guardedSection, LookupOrCreate, hr, threadsSpawned, isSpawnOf, Registry.store]
    · have hn2 : ¬ name = exe.name := fun h => hn h.symm
      simp [guardedSection, LookupOrCreate, hr, threadsSpawned, isSpawnOf, Registry.store, hn,
        hn2]
  | some c =>
    simp [guardedSection, LookupOrCreate, hr, threadsSpawned, isSpawnOf]

/-- Polling the calibrator spawns nothing and removes no calibrator from the registry. -/
theorem pollCalibrator_frame (env : Env) (registry : Registry) (exe : Executable)
    (run_options : ExecutableRunOptions) (binding_params : List (Option Parameter))
    (name : String) :
    (∀ e ∈ (pollCalibrator env registry exe run_options binding_params).2.2.1,
      isSpawnOf name e = false) ∧
    ((registry name).calibrator.isSome →
      ((pollCalibrator env registry exe run_options binding_params).2.1 name).calibrator.isSome)
    := by
  cases hr : (registry exe.name).calibrator with
  | none => simp [pollCalibrator, LookupOrCreate, hr]
  | some c =>
    cases hd : c.done <;> cases hs : env.streamSynchronizeOk run_options.stream <;>
      cases hg : (registry exe.name).engine <;>
      simp [pollCalibrator, LookupOrCreate, hr, hd, hs, hg, isSpawnOf, Registry.store] <;>
      intro h <;> split <;> simp_all

/-- The thread body and the completion flag remove no calibrator from the registry. -/
theorem background_frame (env : Env) (registry : Registry) (name n : String)
    (h : (registry n).calibrator.isSome) :
    (∀ res, threadBody env name (registry name) = .ok res →
      ((registry.store name res) n).calibrator.isSome) ∧
    ((markDone registry name) n).calibrator.isSome := by
  constructor
  · intro res hres
    by_cases hn : n = name
    · subst hn
      simp only [Registry.store, if_true]
      unfold threadBody at hres
      split at hres
      · simp only [Except.ok.injEq] at hres
        subst hres
        exact h
      · split at hres
        · simp at hres
        · split at hres
          · simp at hres
          · simp only [Except.ok.injEq] at hres
            subst hres
            rfl
    · simp only [Registry.store, hn, if_false]
      exact h
  · cases hm : (registry name).calibrator with
    | none => simp only [markDone, hm]; exact h
    | some c =>
      by_cases hn : n = name
      · simp [markDone, hm, Registry.store, hn]
      · simp only [markDone, hm, Registry.store, hn, if_false]
        exact h

/-- One step spawns at most one thread of `name`; none when the resource of `name` has a
calibrator, which it then keeps; and after a spawn the resource has a calibrator. -/
theorem step_spawn (env : Env) (w : World) (s : Step) (name : String) :
    threadsSpawned name (step env w s).2.1 ≤ 1 ∧
    ((w.registry name).calibrator.isSome →
      threadsSpawned name (step env w s).2.1 = 0 ∧
      (((step env w s).1).registry name).calibrator.isSome) ∧
    (threadsSpawned name (step env w s).2.1 = 1 →
      (((step env w s).1).registry name).calibrator.isSome) := by
  have key : ∀ r : World × List Event × Option Fatal, threadsSpawned name r.2.1 = 0 →
      ((w.registry name).calibrator.isSome → (r.1.registry name).calibrator.isSome) →
      (threadsSpawned name r.2.1 ≤ 1 ∧
        ((w.registry name).calibrator.isSome →
          threadsSpawned name r.2.1 = 0 ∧ (r.1.registry name).calibrator.isSome) ∧
        (threadsSpawned name r.2.1 = 1 → (r.1.registry name).calibrator.isSome)) := by
    intro r h0 hP
    rw [h0]
    exact ⟨by omega, fun h => ⟨rfl, hP h⟩, fun h => by omega⟩
  cases s with
  | enter i inputs run_options block_until_done =>
    have hpf := prepare_frame env (w.executables i) inputs run_options
    have hzero : threadsSpawned name
        (step env w (Step.enter i inputs run_options block_until_done)).2.1 = 0 ∧
        (step env w (Step.enter i inputs run_options block_until_done)).1.registry =
          w.registry := by
      cases hp : w.pending i with
      | some pd => simp [step, hp, threadsSpawned]
      | none =>
        rcases hprep : prepare env (w.executables i) inputs run_options with ⟨exe3, log2, r⟩
        rw [hprep] at hpf
        simp only at hpf
        have h2 : threadsSpawned name log2 = 0 :=
          threadsSpawned_eq_zero name log2 (fun e he => (hpf.2.2.2.1 e he).2 name)
        cases r with
        | error f => simp [step, hp, hprep, h2, World.setExecutable]
        | ok p =>
          have hcf := ensureCapacity_frame env exe3 p.engine run_options p.batch_size
          rcases hcap : ensureCapacity env exe3 p.engine run_options p.batch_size with
            ⟨exe4, log3, f⟩
          rw [hcap] at hcf
          simp only at hcf
          have h3 : threadsSpawned name log3 = 0 :=
            threadsSpawned_eq_zero name log3 (fun e he => (hcf.2.2.1 e he).2 name)
          cases f with
          | some f =>
            simp [step, hp, hprep, hcap, threadsSpawned_append, h2, h3, World.setExecutable]
          | none =>
            simp [step, hp, hprep, hcap, threadsSpawned_append, h2, h3, World.setExecutable,
              World.setPending]
    exact key _ hzero.1 (fun h => by rw [hzero.2]; exact h)
  | guard i =>
    cases hp : w.pending i with
    | none => exact key _ (by simp [step, hp, threadsSpawned]) (by simp [step, hp])
    | some pd =>
      cases hst : pd.stage with
      | afterGuard =>
        exact key _ (by simp [step, hp, hst, threadsSpawned]) (by simp [step, hp, hst])
      | beforeGuard =>
        by_cases hc : (pd.run_options.common.use_int8 &&
            (w.executables i).calibrator.isNone) = true
        · have hg := guardedSection_spawn env w.registry (w.executables i) pd.run_options
            pd.prepared.batch_size name
          simp only [step, hp, hst, hc, if_true, World.setPending]
          refine ⟨?_, ?_, ?_⟩
          · rw [hg.1]
            split <;> omega
          · intro h
            refine ⟨?_, hg.2.2 h⟩
            rw [hg.1]
            rw [if_neg]
            rintro ⟨h1, h2⟩
            rw [h2] at h1
            cases hh : (w.registry name).calibrator <;> simp_all
          · intro h1
            rw [hg.1] at h1
            split at h1
            · rename_i hh
              rw [← hh.2]
              exact hg.2.1
            · omega
        · exact key _ (by simp [step, hp, hst, hc, threadsSpawned, World.setPending])
            (by simp [step, hp, hst, hc, World.setPending])
  | leave i =>
    cases hp : w.pending i with
    | none => exact key _ (by simp [step, hp, threadsSpawned]) (by simp [step, hp])
    | some pd =>
      cases hst : pd.stage with
      | beforeGuard =>
        exact key _ (by simp [step, hp, hst, threadsSpawned]) (by simp [step, hp, hst])
      | afterGuard =>
        have hzero : threadsSpawned name (step env w (Step.leave i)).2.1 = 0 ∧
            ((w.registry name).calibrator.isSome →
              (((step env w (Step.leave i)).1).registry name).calibrator.isSome) := by
          have hpc := pollCalibrator_frame env w.registry (w.executables i) pd.run_options
            pd.prepared.binding_params name
          have hr : ∀ r : Executable × Registry × List Event × Option Fatal,
              r = (if (pd.run_options.common.use_int8 &&
                  (w.executables i).calibrator.isNone) = true then
                pollCalibrator env w.registry (w.executables i) pd.run_options
                  pd.prepared.binding_params
                else (w.executables i, w.registry, [], none)) →
              threadsSpawned name r.2.2.1 = 0 ∧
              ((w.registry name).calibrator.isSome → (r.2.1 name).calibrator.isSome) := by
            intro r hr
            split at hr
            · subst hr
              exact ⟨threadsSpawned_eq_zero name _ hpc.1, hpc.2⟩
            · subst hr
              exact ⟨rfl, fun h => h⟩
          rcases hrr : (if (pd.run_options.common.use_int8 &&
                  (w.executables i).calibrator.isNone) = true then
                pollCalibrator env w.registry (w.executables i) pd.run_options
                  pd.prepared.binding_params
                else (w.executables i, w.registry, [], none)) with ⟨exe5, registry1, log4, f⟩
          have hr2 := hr _ hrr.symm
          simp only at hr2
          cases f with
          | some f =>
            simp only [step, hp, hst, hrr, World.setPending, World.setExecutable]
            exact hr2
          | none =>
            have hxf := ExecuteEngine_frame env exe5 pd.prepared.batch_size pd.prepared.buffers
              pd.run_options.stream pd.block_until_done
            rcases hex : ExecuteEngine env exe5 pd.prepared.batch_size pd.prepared.buffers
              pd.run_options.stream pd.block_until_done with ⟨exe6, log5, result⟩
            rw [hex] at hxf
            simp only at hxf
            simp only [step, hp, hst, hrr, hex, World.setPending, World.setExecutable]
            refine ⟨?_, hr2.2⟩
            rw [threadsSpawned_append, hr2.1,
              threadsSpawned_eq_zero name log5 (fun e he => (hxf.2.2.2 e he).2.2.2 name)]
        exact key _ hzero.1 hzero.2
  | threadRun n =>
    cases ht : threadBody env n (w.registry n) with
    | error f => exact key _ (by simp [step, ht, threadsSpawned]) (by simp [step, ht])
    | ok res =>
      refine key _ (by simp [step, ht, threadsSpawned]) ?_
      intro h
      simp only [step, ht]
      exact (background_frame env w.registry n name h).1 res ht
  | calibratorDone n =>
    refine key _ (by simp [step, threadsSpawned]) ?_
    intro h
    simp only [step]
    exact (background_frame env w.registry n name h).2

/-- Once the resource of `name` has a calibrator, no sequence of steps spawns a thread
of `name`. -/
theorem runSteps_no_spawn (env : Env) (name : String) (steps : List Step) (w : World)
    (h : (w.registry name).calibrator.isSome) :
    threadsSpawned name (runSteps env w steps).2.1 = 0 := by
  induction steps generalizing w with
  | nil => rfl
  | cons s rest ih =>
    have hs := (step_spawn env w s name).2.1 h
    rcases hst : step env w s with ⟨w1, log, f⟩
    rw [hst] at hs
    simp only at hs
    cases f with
    | some f => simp only [runSteps, hst]; exact hs.1
    | none =>
      simp only [runSteps, hst]
      rw [threadsSpawned_append, hs.1, ih w1 hs.2]

/-- No sequence of steps, from any world, spawns more than one thread of `name`. -/
theorem runSteps_spawn_le_one (env : Env) (name : String) (steps : List Step) (w : World) :
    threadsSpawned name (runSteps env w steps).2.1 ≤ 1 := by
  induction steps generalizing w with
  | nil => simp [runSteps, threadsSpawned]
  | cons s rest ih =>
    have hs := step_spawn env w s name
    rcases hst : step env w s with ⟨w1, log, f⟩
    rw [hst] at hs
    simp only at hs
    cases f with
    | some f => simp only [runSteps, hst]; exact hs.1
    | none =>
      simp only [runSteps, hst]
      rw [threadsSpawned_append]
      by_cases h1 : threadsSpawned name log = 1
      · rw [runSteps_no_spawn env name rest w1 (hs.2.2 h1)]
        omega
      · have := ih w1
        have := hs.1
        omega

/-- The three steps of a `Run`, taken one after the other without interleaving, are
`Run`: same executable, registry, events and fatal condition. -/
theorem Run_eq_steps (env : Env) (w : World) (i : Nat) (inputs : List Parameter)
    (run_options : ExecutableRunOptions) (block_until_done : Bool)
    (hp : w.pending i = none) :
    (runSteps env w [Step.enter i inputs run_options block_until_done, Step.guard i,
        Step.leave i]).1.registry =
      (Run env w.registry (w.executables i) inputs run_options block_until_done).registry ∧
    (runSteps env w [Step.enter i inputs run_options block_until_done, Step.guard i,
        Step.leave i]).1.executables i =
      (Run env w.registry (w.executables i) inputs run_options block_until_done).exe ∧
    (runSteps env w [Step.enter i inputs run_options block_until_done, Step.guard i,
        Step.leave i]).2.1 =
      (Run env w.registry (w.executables i) inputs run_options block_until_done).log ∧
    (runSteps env w [Step.enter i inputs run_options block_until_done, Step.guard i,
        Step.leave i]).2.2 =
      (match (Run env w.registry (w.executables i) inputs run_options block_until_done).result
        with
        | .ok _ => none
        | .error f => some f) := by
  rcases hprep : prepare env (w.executables i) inputs run_options with ⟨exe3, log2, r⟩
  cases r with
  | error f => simp [runSteps, step, hp, hprep, Run, World.setExecutable]
  | ok p =>
    rcases hcap : ensureCapacity env exe3 p.engine run_options p.batch_size with ⟨exe4, log3, f⟩
    cases f with
    | some f => simp [runSteps, step, hp, hprep, hcap, Run, World.setExecutable]
    | none =>
      by_cases hc : (run_options.common.use_int8 && exe4.calibrator.isNone) = true
      · rcases hpoll : pollCalibrator env
            (guardedSection env w.registry exe4 run_options p.batch_size).1 exe4 run_options
            p.binding_params with ⟨exe5, registry1, log4, f4⟩
        cases f4 with
        | some f4 =>
          simp [runSteps, step, hp, hprep, hcap, Run, World.setExecutable, World.setPending,
            calibrateAndExecute, coordinate, hc, hpoll]
        | none =>
          rcases hex : ExecuteEngine env exe5 p.batch_size p.buffers run_options.stream
            block_until_done with ⟨exe6, log5, result⟩
          cases result <;>
            simp [runSteps, step, hp, hprep, hcap, Run, World.setExecutable, World.setPending,
              calibrateAndExecute, coordinate, hc, hpoll, hex]
      · rcases hex : ExecuteEngine env exe4 p.batch_size p.buffers run_options.stream
          block_until_done with ⟨exe6, log5, result⟩
        cases result <;>
          simp [runSteps, step, hp, hprep, hcap, Run, World.setExecutable, World.setPending,
            calibrateAndExecute, coordinate, hc, hex]

/-- Running a sequence that ends without fatal condition and then another sequence. -/
theorem runSteps_append (env : Env) (pre post : List Step) (w : World)
    (h : (runSteps env w pre).2.2 = none) :
    (runSteps env w (pre ++ post)).2.1 =
      (runSteps env w pre).2.1 ++ (runSteps env (runSteps env w pre).1 post).2.1 := by
  induction pre generalizing w with
  | nil => simp [runSteps]
  | cons s rest ih =>
    rcases hst : step env w s with ⟨w1, log, f⟩
    cases f with
    | some f => simp [runSteps, hst] at h
    | none =>
      simp only [runSteps, hst] at h
      have hih := ih w1 h
      simp only [List.cons_append, runSteps, hst, List.append_assoc]
      exact congrArg (fun l => log ++ l) hih

/-! ## C7: one background thread per name -/

/-- C7. Runs on any executables interleave step by step (lines 109-154, the guarded
section 156-173 as one atomic step, lines 175-187) with each other, with the background
thread and with the completion flag. In a world where the resource of `name` has no
calibrator yet, the first `Run` of an executable of that name that requests int8 without
a local calibrator and takes its guarded section creates the shared calibrator and
spawns the thread (exactly one spawn in that step); whatever steps follow, and whatever
steps without fatal condition led to that world, exactly one thread of `name` is
spawned in the whole sequence. No sequence from any world spawns more than one thread
of `name`, and none is spawned once the resource has a calibrator. -/
theorem C7_exactly_one_thread (env : Env) (name : String) (w : World) (i : Nat)
    (pd : Pending) (rest : List Step)
    (hun : (w.registry name).calibrator = none)
    (hpend : w.pending i = some pd) (hstage : pd.stage = Stage.beforeGuard)
    (hname : (w.executables i).name = name)
    (h8 : pd.run_options.common.use_int8 = true)
    (hcal : (w.executables i).calibrator = none) :
    threadsSpawned name (step env w (Step.guard i)).2.1 = 1 ∧
    (((step env w (Step.guard i)).1).registry name).calibrator.isSome ∧
    threadsSpawned name (runSteps env w (Step.guard i :: rest)).2.1 = 1 ∧
    (∀ w0 pre, (runSteps env w0 pre).2.2 = none → (runSteps env w0 pre).1 = w →
      threadsSpawned name (runSteps env w0 (pre ++ Step.guard i :: rest)).2.1 = 1) ∧
    (∀ w0 steps, threadsSpawned name (runSteps env w0 steps).2.1 ≤ 1) ∧
    (∀ w0 steps, (w0.registry name).calibrator.isSome →
      threadsSpawned name (runSteps env w0 steps).2.1 = 0) := by
  have hg := guardedSection_spawn env w.registry (w.executables i) pd.run_options
    pd.prepared.batch_size name
  have hc : (pd.run_options.common.use_int8 && (w.executables i).calibrator.isNone) = true := by
    simp [h8, hcal]
  have hstep : (step env w (Step.guard i)) =
      (({ w with registry := (guardedSection env w.registry (w.executables i) pd.run_options
            pd.prepared.batch_size).1 } : World).setPending i
          (some { pd with stage := Stage.afterGuard }),
        (guardedSection env w.registry (w.executables i) pd.run_options
          pd.prepared.batch_size).2, none) := by
    simp only [step, hpend, hstage, hc, if_true]
  have h1 : threadsSpawned name (step env w (Step.guard i)).2.1 = 1 := by
    rw [hstep, hg.1, if_pos]
    rw [hname, hun]
    exact ⟨rfl, rfl⟩
  have h2 : (((step env w (Step.guard i)).1).registry name).calibrator.isSome :=
    (step_spawn env w (Step.guard i) name).2.2 h1
  have h3 : threadsSpawned name (runSteps env w (Step.guard i :: rest)).2.1 = 1 := by
    have hrun : (runSteps env w (Step.guard i :: rest)).2.1 =
        (step env w (Step.guard i)).2.1 ++
          (runSteps env (step env w (Step.guard i)).1 rest).2.1 := by
      simp only [runSteps, hstep]
    rw [hrun, threadsSpawned_append, h1, runSteps_no_spawn env name rest _ h2]
  refine ⟨h1, h2, h3, ?_, fun w0 steps => runSteps_spawn_le_one env name steps w0,
    fun w0 steps h => runSteps_no_spawn env name steps w0 h⟩
  intro w0 pre hok hw
  have hle := runSteps_spawn_le_one env name (pre ++ Step.guard i :: rest) w0
  rw [runSteps_append env pre _ w0 hok, threadsSpawned_append, hw, h3] at hle ⊢
  omega

/-- Witness of C7: two executables named conv_block have both entered a `Run` asking for
int8 without a table; executable 0 takes its guarded section first, then executable 1,
both finish, the thread runs, the calibrator reports completion and executable 1 runs
again: one thread is spawned. -/
theorem C7_exactly_one_thread_witness :
    threadsSpawned "conv_block"
      (runSteps envAll worldEntered
        (Step.guard 0 :: [Step.guard 1, Step.leave 0, Step.leave 1,
          Step.threadRun "conv_block", Step.calibratorDone "conv_block",
          Step.enter 1 [paramX] optsInt8 false, Step.guard 1, Step.leave 1])).2.1 = 1 :=
  (C7_exactly_one_thread envAll "conv_block" worldEntered 0 pendingEntered
    [Step.guard 1, Step.leave 0, Step.leave 1, Step.threadRun "conv_block",
      Step.calibratorDone "conv_block", Step.enter 1 [paramX] optsInt8 false, Step.guard 1,
      Step.leave 1] rfl rfl rfl rfl rfl rfl).2.2.1

end TrtExecutable
